import Mathlib

/-!
Verification development for the OpenCode → Langfuse hook
(`langfuse_hook.py`): a shallow embedding of the persisted-state model,
the two event handlers, the turn assembler, the emission gate and the
lifecycle flush, together with theorems about duplicate suppression,
at-most-once emission, buffer purging and turn assembly.

Modelling conventions:
* Python dicts become insertion-ordered association lists
  (`List (String × α)`): updating an existing key keeps its position, a
  fresh key is appended, exactly as CPython dicts behave, so `.values()`
  iteration order is preserved.  Reachable states never hold duplicate
  keys, so `mpop` removing every occurrence of a key coincides with
  `dict.pop(k, None)`.
* Timestamps are `Nat` instants.  The source stores ISO strings produced
  by `datetime.isoformat` and re-parsed by `_parse_dt`; the round trip is
  lossless, so last-seen maps store the instant directly.
* `datetime.now()` fallbacks (`_iso_now`, missing `time.start`) are an
  explicit `now : Nat` argument threaded through each invocation.
* The trace sink is modelled by the list of turn payloads an invocation
  delivers; a `sinkOk : Bool` flag says whether the Langfuse client calls
  inside `_emit_turn_trace` raise (the source catches those failures
  inside that function and only logs them).  Lifecycle traces are not
  turn payloads and are not recorded.
-/

/-- Lookup in an insertion-ordered association list (Python `dict.get`). -/
def mlookup {α : Type} (m : List (String × α)) (k : String) : Option α :=
  match m with
  | [] => none
  | (k', v) :: rest => if k' = k then some v else mlookup rest k

/-- Insert/overwrite in an insertion-ordered association list
(Python `dict.__setitem__`): an existing key keeps its position, a fresh
key is appended at the end. -/
def minsert {α : Type} (m : List (String × α)) (k : String) (v : α) :
    List (String × α) :=
  match m with
  | [] => [(k, v)]
  | (k', v') :: rest =>
    if k' = k then (k, v) :: rest else (k', v') :: minsert rest k v

/-- Remove a key (Python `dict.pop(k, None)`; duplicate-free in all
reachable states, where removing every occurrence is the same thing). -/
def mpop {α : Type} (m : List (String × α)) (k : String) :
    List (String × α) :=
  match m with
  | [] => []
  | (k', v') :: rest =>
    if k' = k then mpop rest k else (k', v') :: mpop rest k

theorem mlookup_minsert_self {α : Type} (m : List (String × α)) (k : String)
    (v : α) : mlookup (minsert m k v) k = some v := by
  induction m with
  | nil => simp [minsert, mlookup]
  | cons hd tl ih =>
    by_cases h : hd.1 = k
    · simp [minsert, h, mlookup]
    · simp [minsert, h, mlookup, ih]

theorem mlookup_minsert_ne {α : Type} (m : List (String × α))
    (k k' : String) (v : α) (h : k ≠ k') :
    mlookup (minsert m k v) k' = mlookup m k' := by
  induction m with
  | nil => simp [minsert, mlookup, h]
  | cons hd tl ih =>
    by_cases hh : hd.1 = k
    · subst hh
      simp [minsert, mlookup, h, ih]
    · by_cases hk : hd.1 = k'
      · simp [minsert, hh, mlookup, hk, Ne.symm h]
      · simp [minsert, hh, mlookup, hk, ih]

theorem mlookup_minsert_isSome {α : Type} (m : List (String × α))
    (k k' : String) (v : α) (h : (mlookup m k').isSome = true) :
    (mlookup (minsert m k v) k').isSome = true := by
  by_cases hk : k = k'
  · subst hk; simp [mlookup_minsert_self]
  · rwa [mlookup_minsert_ne m k k' v hk]

theorem mlookup_mpop_self {α : Type} (m : List (String × α)) (k : String) :
    mlookup (mpop m k) k = none := by
  induction m with
  | nil => simp [mpop, mlookup]
  | cons hd tl ih =>
    by_cases h : hd.1 = k
    · simp [mpop, h, ih]
    · simp [mpop, h, mlookup, ih]

theorem mlookup_mpop_ne {α : Type} (m : List (String × α)) (k k' : String)
    (h : k ≠ k') : mlookup (mpop m k) k' = mlookup m k' := by
  induction m with
  | nil => simp [mpop]
  | cons hd tl ih =>
    by_cases hh : hd.1 = k
    · subst hh
      simp [mpop, mlookup, h, ih]
    · by_cases hk : hd.1 = k'
      · simp [mpop, hh, mlookup, hk, Ne.symm h]
      · simp [mpop, hh, mlookup, hk, ih]

theorem mlookup_mpop_none {α : Type} (m : List (String × α)) (k k' : String)
    (h : mlookup m k' = none) : mlookup (mpop m k) k' = none := by
  by_cases hk : k = k'
  · subst hk; exact mlookup_mpop_self m k
  · rw [mlookup_mpop_ne m k k' hk]; exact h

/-! ## Stable insertion sort

`list.sort(key=...)` in Python is a stable ascending sort.  `insertOrd`
places a new element after every existing element that is `≤` it, which
together with right-to-left insertion reproduces a stable sort. -/

/-- Insert `x` after all elements `y` with `le y x` (stable placement). -/
def insertOrd {α : Type} (le : α → α → Bool) (x : α) : List α → List α
  | [] => [x]
  | y :: ys => if le y x then y :: insertOrd le x ys else x :: y :: ys

/-- Stable insertion sort by the boolean relation `le`. -/
def sortOrd {α : Type} (le : α → α → Bool) : List α → List α
  | [] => []
  | x :: xs => insertOrd le x (sortOrd le xs)

theorem insertOrd_perm {α : Type} (le : α → α → Bool) (x : α)
    (l : List α) : List.Perm (insertOrd le x l) (x :: l) := by
  induction l with
  | nil => simp [insertOrd]
  | cons y ys ih =>
    by_cases h : le y x
    · simp only [insertOrd, h, if_pos rfl, ite_true]
      exact ((ih.cons y).trans (List.Perm.swap x y ys))
    · simp [insertOrd, h]

theorem sortOrd_perm {α : Type} (le : α → α → Bool) (l : List α) :
    List.Perm (sortOrd le l) l := by
  induction l with
  | nil => simp [sortOrd]
  | cons x xs ih =>
    exact (insertOrd_perm le x (sortOrd le xs)).trans (ih.cons x)

theorem mem_insertOrd {α : Type} (le : α → α → Bool) (x a : α)
    (l : List α) : a ∈ insertOrd le x l ↔ a = x ∨ a ∈ l := by
  constructor
  · intro h
    have := (insertOrd_perm le x l).mem_iff.mp h
    simpa using this
  · intro h
    apply (insertOrd_perm le x l).mem_iff.mpr
    simpa using h

theorem insertOrd_pairwise {α : Type} (le : α → α → Bool)
    (htot : ∀ a b, le a b = false → le b a = true)
    (htrans : ∀ a b c, le a b = true → le b c = true → le a c = true)
    (x : α) (l : List α)
    (hl : l.Pairwise (fun a b => le a b = true)) :
    (insertOrd le x l).Pairwise (fun a b => le a b = true) := by
  induction l with
  | nil => simp [insertOrd]
  | cons y ys ih =>
    rcases List.pairwise_cons.mp hl with ⟨hy, hys⟩
    by_cases h : le y x
    · simp only [insertOrd, h, ite_true]
      refine List.pairwise_cons.mpr ⟨?_, ih hys⟩
      intro a ha
      rcases (mem_insertOrd le x a ys).mp ha with rfl | hmem
      · exact h
      · exact hy a hmem
    · simp only [insertOrd, h, ite_false]
      have hxy : le x y = true := htot y x (by simpa using h)
      refine List.pairwise_cons.mpr ⟨?_, hl⟩
      intro a ha
      rcases List.mem_cons.mp ha with rfl | hmem
      · exact hxy
      · exact htrans x y a hxy (hy a hmem)

theorem sortOrd_pairwise {α : Type} (le : α → α → Bool)
    (htot : ∀ a b, le a b = false → le b a = true)
    (htrans : ∀ a b c, le a b = true → le b c = true → le a c = true)
    (l : List α) :
    (sortOrd le l).Pairwise (fun a b => le a b = true) := by
  induction l with
  | nil => simp [sortOrd]
  | cons x xs ih => exact insertOrd_pairwise le htot htrans x (sortOrd le xs) ih

theorem insertOrd_map_comm {α β : Type} (f : α → β)
    (leA : α → α → Bool) (leB : β → β → Bool)
    (hkey : ∀ a b, leB (f a) (f b) = leA a b) (x : α) (l : List α) :
    insertOrd leB (f x) (l.map f) = (insertOrd leA x l).map f := by
  induction l with
  | nil => simp [insertOrd]
  | cons y ys ih =>
    by_cases h : leA y x
    · simp [insertOrd, hkey, h, ih]
    · simp [insertOrd, hkey, h]

theorem sortOrd_map_comm {α β : Type} (f : α → β)
    (leA : α → α → Bool) (leB : β → β → Bool)
    (hkey : ∀ a b, leB (f a) (f b) = leA a b) (l : List α) :
    sortOrd leB (l.map f) = (sortOrd leA l).map f := by
  induction l with
  | nil => simp [sortOrd]
  | cons x xs ih =>
    simp only [List.map_cons, sortOrd, ih]
    exact insertOrd_map_comm f leA leB hkey x (sortOrd leA xs)

/-! ## Data model

Typed images of the dict shapes the hook manipulates.  Fields the
reconciliation and assembly logic never inspects (provider ids, token
usage, raw metadata blobs) are omitted: they are passed through to the
sink verbatim and play no role in any state transition. -/

/-- The `state` object of a tool part.  The source serializes the tool
input with `json.dumps` (for dicts/lists) or `str(x or "")`; we model the
already-serialized string, with `none` for an absent value. -/
structure ToolState where
  status : String
  input : Option String
  output : Option String
  error : Option String
deriving DecidableEq, Repr

/-- One message part as carried by a `message.part.updated` event and
buffered in the parts maps (named `MsgPart` because `Part` is taken by
Mathlib).  `timeStart` is the parsed `time.start` instant (`none` when
missing or unparseable). -/
structure MsgPart where
  id : String
  messageID : String
  type : String
  text : Option String
  timeStart : Option Nat
  tool : Option String
  state : Option ToolState
deriving DecidableEq, Repr

/-- The `info` object of a `message.updated` event, and the stored
Message record.  `role` is the raw role string (the handler lowercases
it); `completed` is the truthiness of `info.time.completed`. -/
structure MessageInfo where
  id : String
  role : String
  parentID : String
  completed : Bool
deriving DecidableEq, Repr

/-- A reasoning block row assembled by `_build_turn_details`. -/
structure ReasoningRow where
  id : String
  text : String
  timestamp : Nat
deriving DecidableEq, Repr

/-- A terminal tool invocation row assembled by `_build_turn_details`. -/
structure ToolRow where
  id : String
  name : String
  timestamp : Nat
  status : String
  input : String
  output : String
deriving DecidableEq, Repr

/-- A text row used while assembling output text
(the `(ts, id, text)` triples of the source). -/
structure TextRow where
  timestamp : Nat
  id : String
  text : String
deriving DecidableEq, Repr

/-- One fully assembled turn as delivered to the trace sink by
`_emit_turn_trace`.  `session_id`/`message_id` are the emission gate's
arguments — the (session, assistant message) pair whose marker guards
the call; the remaining metadata the source attaches is sink-formatting
and is omitted. -/
structure TurnPayload where
  session_id : String
  message_id : String
  input_text : String
  output_text : String
  reasoning : List ReasoningRow
  tools : List ToolRow
deriving DecidableEq, Repr

/-- Inner map from part id to part payload. -/
abbrev PartsMap := List (String × MsgPart)

/-- The persisted state document (`state.json`), one top-level map per
key of `_load_state`.  `message_events` entries are the appended
`(captured_at, info)` records; `session_lifecycle` values are
`(event name, instant)`. -/
structure HookState where
  messages : List (String × MessageInfo)
  message_events : List (String × List (Nat × MessageInfo))
  user_parts : List (String × PartsMap)
  assistant_parts : List (String × PartsMap)
  assistant_finish_seen : List (String × Nat)
  pending_parts : List (String × PartsMap)
  message_last_seen : List (String × Nat)
  part_last_seen : List (String × Nat)
  emitted : List (String × Nat)
  session_lifecycle : List (String × (String × Nat))
deriving DecidableEq, Repr

/-- The fresh empty state `_load_state` returns for a missing file. -/
def initial_state : HookState :=
  { messages := [], message_events := [], user_parts := [],
    assistant_parts := [], assistant_finish_seen := [], pending_parts := [],
    message_last_seen := [], part_last_seen := [], emitted := [],
    session_lifecycle := [] }

/-- `_msg_key`: the composite per-message key. -/
def msg_key (session_id message_id : String) : String :=
  session_id ++ ":" ++ message_id

/-- `_turn_key`: the source hashes `f"{session_id}:{message_id}"` with
SHA-256 and truncates to 24 hex chars; it is used only as a deterministic
key into the `emitted` map, and the source explicitly tolerates the rare
collision.  We model it as an injective deterministic encoding of the
same pair, which preserves everything the claims depend on. -/
def turn_key (session_id message_id : String) : String :=
  "turn:" ++ session_id ++ ":" ++ message_id

/-- `_is_older_event`: an event is stale when the stored last-seen
instant exists and is strictly newer. -/
def is_older_event (last_seen : List (String × Nat)) (k : String)
    (event_dt : Nat) : Bool :=
  match mlookup last_seen k with
  | none => false
  | some prev => event_dt < prev

/-- `MAX_MESSAGE_EVENTS_PER_MESSAGE` (env default 30). -/
def MAX_MESSAGE_EVENTS_PER_MESSAGE : Nat := 30

/-! ## Character-level string helpers

The Python string operations the hook relies on (`str.strip`,
`str.lower`, `str.startswith`, slicing, lexicographic comparison,
`str.join`) are modelled by structural recursion over `String.data` so
that every concrete run reduces inside the kernel. -/

/-- Lexicographic `≤` on character lists (Python string comparison). -/
def chars_le : List Char → List Char → Bool
  | [], _ => true
  | _ :: _, [] => false
  | a :: as, b :: bs =>
    if a < b then true else if a = b then chars_le as bs else false

/-- Python `a <= b` on strings. -/
def str_le (a b : String) : Bool :=
  chars_le a.data b.data

/-- ASCII lower-casing of one character (`str.lower` on the role strings
the hook compares; those are ASCII). -/
def lower_char (c : Char) : Char :=
  if 65 ≤ c.toNat ∧ c.toNat ≤ 90 then Char.ofNat (c.toNat + 32) else c

/-- Python `str.lower`. -/
def str_lower (s : String) : String :=
  ⟨s.data.map lower_char⟩

/-- Python `str.strip()`: drop leading and trailing whitespace. -/
def str_strip (s : String) : String :=
  ⟨((s.data.dropWhile Char.isWhitespace).reverse.dropWhile
      Char.isWhitespace).reverse⟩

/-- Python `str.startswith`. -/
def str_startsWith (s pre : String) : Bool :=
  pre.data.isPrefixOf s.data

/-- Python `s[n:]` (by characters). -/
def str_drop (s : String) (n : Nat) : String :=
  ⟨s.data.drop n⟩

/-- Python `sep.join(l)`. -/
def str_join (sep : String) : List String → String
  | [] => ""
  | [x] => x
  | x :: xs => x ++ sep ++ str_join sep xs

/-! ## Turn assembler (`_extract_text_from_parts`, `_build_turn_details`) -/

/-- The `.values()` view of a parts map, in insertion order. -/
def part_values (m : PartsMap) : List MsgPart :=
  m.map Prod.snd

/-- Ascending lexicographic order on the `(timestamp, id)` sort key used
by all three row sorts (Python tuple comparison). -/
def key_le (a b : Nat × String) : Bool :=
  a.1 < b.1 || (a.1 == b.1 && str_le a.2 b.2)

def text_row_le (a b : TextRow) : Bool :=
  key_le (a.timestamp, a.id) (b.timestamp, b.id)

def reasoning_row_le (a b : ReasoningRow) : Bool :=
  key_le (a.timestamp, a.id) (b.timestamp, b.id)

def tool_row_le (a b : ToolRow) : Bool :=
  key_le (a.timestamp, a.id) (b.timestamp, b.id)

/-- The text row a part contributes: only `text`-typed parts with a
non-empty string content, timestamped by `time.start` or "now". -/
def text_row (now : Nat) (p : MsgPart) : Option TextRow :=
  if p.type = "text" then
    match p.text with
    | some t =>
      if t = "" then none
      else some { timestamp := p.timeStart.getD now, id := p.id, text := t }
    | none => none
  else none

/-- The reasoning row a part contributes: only `reasoning`-typed parts
with a non-empty string content. -/
def reasoning_row (now : Nat) (p : MsgPart) : Option ReasoningRow :=
  if p.type = "reasoning" then
    match p.text with
    | some t =>
      if t = "" then none
      else some { id := p.id, text := t, timestamp := p.timeStart.getD now }
    | none => none
  else none

/-- `p.get("tool") or "tool"`. -/
def tool_name (t : Option String) : String :=
  match t with
  | some s => if s = "" then "tool" else s
  | none => "tool"

/-- The tool row a part contributes: only `tool`-typed parts whose state
has reached a terminal status; output text is the state's output for
`completed` and its error for `error` (absent values become `""`). -/
def tool_row (now : Nat) (p : MsgPart) : Option ToolRow :=
  if p.type = "tool" then
    match p.state with
    | some st =>
      if st.status = "completed" ∨ st.status = "error" then
        some { id := p.id, name := tool_name p.tool,
               timestamp := p.timeStart.getD now, status := st.status,
               input := st.input.getD "",
               output := (if st.status = "completed" then st.output
                          else st.error).getD "" }
      else none
    | none => none
  else none

/-- `_extract_text_from_parts`: text rows of the map, stably sorted by
`(timestamp, id)`, contents joined with newlines, then `str.strip()`ed
(modelled by `str_strip`). -/
def extract_text_from_parts (m : PartsMap) (now : Nat) : String :=
  let rows := sortOrd text_row_le ((part_values m).filterMap (text_row now))
  str_strip (str_join "\n" (rows.map TextRow.text))

/-- `_build_turn_details`: the source walks `parts_map.values()` once,
appending each part to at most one of three row lists, which equals three
independent `filterMap`s over the values in insertion order; each list is
then stably sorted by `(timestamp, id)` and the text rows joined and
stripped. -/
def build_turn_details (m : PartsMap) (now : Nat) :
    String × List ReasoningRow × List ToolRow :=
  let vs := part_values m
  let text_rows := sortOrd text_row_le (vs.filterMap (text_row now))
  let reasoning_rows :=
    sortOrd reasoning_row_le (vs.filterMap (reasoning_row now))
  let tool_rows := sortOrd tool_row_le (vs.filterMap (tool_row now))
  (str_strip (str_join "\n" (text_rows.map TextRow.text)),
   reasoning_rows, tool_rows)

/-! ### Spec-side assembly definitions

These follow the specification's words (filter the parts, order them by
`(start timestamp, part id)`, map to the described record), to be
compared with the implementation translation above. -/

/-- Spec wording: "the non-empty text contents of exactly the parts of
type text". -/
def spec_is_nonempty_text (p : MsgPart) : Bool :=
  p.type == "text" && p.text.getD "" != ""

/-- Spec wording: parts "ordered ascending by the pair
(part start timestamp, part id)". -/
def spec_part_le (now : Nat) (a b : MsgPart) : Bool :=
  key_le (a.timeStart.getD now, a.id) (b.timeStart.getD now, b.id)

/-- Spec wording for the text concatenation rule: the non-empty text
contents of the text parts, ordered ascending by (start timestamp,
part id), joined by newline characters. -/
def spec_ordered_text_join (m : PartsMap) (now : Nat) : String :=
  str_join "\n"
    ((sortOrd (spec_part_le now)
        ((part_values m).filter spec_is_nonempty_text)).map
      (fun p => p.text.getD ""))

/-- Spec wording: "parts of type tool whose state status is completed or
error". -/
def spec_is_terminal_tool (p : MsgPart) : Bool :=
  p.type == "tool" &&
    (match p.state with
     | some st => st.status == "completed" || st.status == "error"
     | none => false)

/-- Spec wording: the record a terminal tool part carries — tool name,
serialized input, status, timestamp, and as output text the state's
output when completed or the state's error when errored. -/
def spec_tool_invocation (now : Nat) (p : MsgPart) : ToolRow :=
  { id := p.id
    name := tool_name p.tool
    timestamp := p.timeStart.getD now
    status := (p.state.map ToolState.status).getD ""
    input := ((p.state.map ToolState.input).getD none).getD ""
    output :=
      (if (p.state.map ToolState.status).getD "" = "completed" then
        (p.state.map ToolState.output).getD none
      else (p.state.map ToolState.error).getD none).getD "" }

/-! ## Emission gate, cleanup, event handlers, lifecycle flush -/

/-- `_cleanup_emitted_message_buffers`: drop the message's part buffer,
event history and finish-seen flag. -/
def cleanup_emitted_message_buffers (s : HookState)
    (session_id message_id : String) : HookState :=
  let key := msg_key session_id message_id
  { s with assistant_parts := mpop s.assistant_parts key,
           message_events := mpop s.message_events key,
           assistant_finish_seen := mpop s.assistant_finish_seen key }

/-- `_append_message_event`: append `(now, info)` to the message's
diagnostic event ring, keeping only the newest
`MAX_MESSAGE_EVENTS_PER_MESSAGE` entries. -/
def append_message_event (s : HookState) (key : String)
    (info : MessageInfo) (now : Nat) : HookState :=
  let evs := (mlookup s.message_events key).getD [] ++ [(now, info)]
  let evs :=
    if MAX_MESSAGE_EVENTS_PER_MESSAGE < evs.length then
      evs.drop (evs.length - MAX_MESSAGE_EVENTS_PER_MESSAGE)
    else evs
  { s with message_events := minsert s.message_events key evs }

/-- The user-message key resolved from the assistant record's parent
link (`""` when there is no parent). -/
def user_key_of (session_id : String) (info : MessageInfo) : String :=
  if info.parentID ≠ "" then msg_key session_id info.parentID else ""

/-- The not-ready test of `_maybe_emit_assistant_turn`: empty output
text, no reasoning rows and no terminal tool rows. -/
def turn_is_empty (s : HookState) (session_id message_id : String)
    (now : Nat) : Bool :=
  decide ((build_turn_details
      ((mlookup s.assistant_parts
          (msg_key session_id message_id)).getD []) now).1 = "")
  && decide ((build_turn_details
      ((mlookup s.assistant_parts
          (msg_key session_id message_id)).getD []) now).2.1 = [])
  && decide ((build_turn_details
      ((mlookup s.assistant_parts
          (msg_key session_id message_id)).getD []) now).2.2 = [])

/-- The assembled turn payload `_emit_turn_trace` hands to the sink:
input text from the linked user message's buffered parts, output text,
reasoning rows and tool rows from the assistant's buffered parts. -/
def emitted_payload (s : HookState) (session_id message_id : String)
    (info : MessageInfo) (now : Nat) : TurnPayload :=
  { session_id := session_id, message_id := message_id,
    input_text :=
      extract_text_from_parts
        ((mlookup s.user_parts (user_key_of session_id info)).getD []) now,
    output_text :=
      (build_turn_details
          ((mlookup s.assistant_parts
              (msg_key session_id message_id)).getD []) now).1,
    reasoning :=
      (build_turn_details
          ((mlookup s.assistant_parts
              (msg_key session_id message_id)).getD []) now).2.1,
    tools :=
      (build_turn_details
          ((mlookup s.assistant_parts
              (msg_key session_id message_id)).getD []) now).2.2 }

/-- Record the emitted marker (`state["emitted"][turn_id] = _iso_now()`). -/
def mark_emitted (s : HookState) (turn_id : String) (now : Nat) :
    HookState :=
  { s with emitted := minsert s.emitted turn_id now }

/-- The post-emission purge of `_maybe_emit_assistant_turn`: drop the
assistant key's parts, events and finish flag, and — when a user key
exists — the user key's parts and events. -/
def purge_turn_buffers (s : HookState) (akey ukey : String) : HookState :=
  { s with
    assistant_parts := mpop s.assistant_parts akey,
    message_events :=
      if ukey ≠ "" then mpop (mpop s.message_events akey) ukey
      else mpop s.message_events akey,
    assistant_finish_seen := mpop s.assistant_finish_seen akey,
    user_parts := if ukey ≠ "" then mpop s.user_parts ukey else s.user_parts }

/-- `_maybe_emit_assistant_turn`.  Returns the new state and the turn
payloads actually delivered to the sink.  The source's `_emit_turn_trace`
catches every sink failure internally and only logs it, so the caller
records the emitted marker and purges buffers regardless of `sinkOk`;
`sinkOk` only decides whether the payload reaches the sink.  Each local
binding of the source is one of the named definitions above, applied to
the pre-purge state, exactly as the source computes it. -/
def maybe_emit_assistant_turn (sinkOk : Bool) (now : Nat) (s : HookState)
    (session_id message_id : String) (info : MessageInfo) :
    HookState × List TurnPayload :=
  if (mlookup s.emitted (turn_key session_id message_id)).isSome then (s, [])
  else if turn_is_empty s session_id message_id now then (s, [])
  else
    (purge_turn_buffers
        (mark_emitted s (turn_key session_id message_id) now)
        (msg_key session_id message_id) (user_key_of session_id info),
     if sinkOk then [emitted_payload s session_id message_id info now]
     else [])

/-- `dict.update(pending)` on a bucket's inner map: every pending part is
written under its part id, overriding per part id, appended in pending
order for fresh ids. -/
def merge_parts (base pending : PartsMap) : PartsMap :=
  pending.foldl (fun acc kv => minsert acc kv.1 kv.2) base

/-- `state[bucket].setdefault(key, {}).update(pending)`. -/
def bucket_merge (bucket : List (String × PartsMap)) (key : String)
    (pending : PartsMap) : List (String × PartsMap) :=
  minsert bucket key (merge_parts ((mlookup bucket key).getD []) pending)

/-- `state[bucket].setdefault(key, {})[part_id] = part`. -/
def bucket_put (bucket : List (String × PartsMap)) (key : String)
    (part : MsgPart) : List (String × PartsMap) :=
  minsert bucket key (minsert ((mlookup bucket key).getD []) part.id part)

/-- The duplicate-suppression acceptance of `_handle_message_updated`:
record the event instant and overwrite the Message record. -/
def accept_message (s : HookState) (key : String) (ts : Nat)
    (info : MessageInfo) : HookState :=
  { s with message_last_seen := minsert s.message_last_seen key ts,
           messages := minsert s.messages key info }

/-- The acceptance step of `_handle_message_part_updated`: record the
event instant under the composite (message, part) key. -/
def accept_part (s : HookState) (part_key : String) (ts : Nat) :
    HookState :=
  { s with part_last_seen := minsert s.part_last_seen part_key ts }

/-- `state["assistant_finish_seen"][key] = _iso_now()`. -/
def mark_finish_seen (s : HookState) (key : String) (now : Nat) :
    HookState :=
  { s with assistant_finish_seen := minsert s.assistant_finish_seen key now }

/-- The pending-part reconciliation block of `_handle_message_updated`:
`pending = state["pending_parts"].pop(key, {})`, then — when non-empty —
merge into the known role's bucket, or re-insert unchanged when the role
is still unknown. -/
def reconcile_pending (s : HookState) (key role : String) : HookState :=
  if ((mlookup s.pending_parts key).getD []).isEmpty then
    { s with pending_parts := mpop s.pending_parts key }
  else if role = "assistant" then
    { s with
      pending_parts := mpop s.pending_parts key,
      assistant_parts := bucket_merge s.assistant_parts key
                           ((mlookup s.pending_parts key).getD []) }
  else if role = "user" then
    { s with
      pending_parts := mpop s.pending_parts key,
      user_parts := bucket_merge s.user_parts key
                      ((mlookup s.pending_parts key).getD []) }
  else
    { s with pending_parts := minsert (mpop s.pending_parts key) key
                                ((mlookup s.pending_parts key).getD []) }

/-- The state `_handle_message_updated` reaches after acceptance, event
append and pending reconciliation (the state named `state` at the
`role != "assistant"` test of the source). -/
def message_updated_buffered (s : HookState) (key : String) (ts : Nat)
    (info : MessageInfo) (now : Nat) : HookState :=
  reconcile_pending
    (append_message_event (accept_message s key ts info) key info now)
    key (str_lower info.role)

/-- `_handle_message_updated`.  The source threads one mutable `state`
through a straight line of updates; here each branch is the composition
of the named update steps it executes.  The emitted-marker test reads
`state["emitted"]`, which none of the earlier steps of the invocation
touch, so it is phrased on the incoming state. -/
def handle_message_updated (sinkOk : Bool) (now : Nat) (s : HookState)
    (session_id : String) (ts : Nat) (info : MessageInfo) :
    HookState × List TurnPayload :=
  if info.id = "" then (s, [])
  else if is_older_event s.message_last_seen (msg_key session_id info.id)
      ts then (s, [])
  else if str_lower info.role == "assistant"
      && (mlookup s.emitted (turn_key session_id info.id)).isSome then
    (cleanup_emitted_message_buffers
        (accept_message s (msg_key session_id info.id) ts info)
        session_id info.id, [])
  else if str_lower info.role ≠ "assistant" then
    (message_updated_buffered s (msg_key session_id info.id) ts info now, [])
  else if info.completed then
    maybe_emit_assistant_turn sinkOk now
      (mark_finish_seen
        (message_updated_buffered s (msg_key session_id info.id) ts info now)
        (msg_key session_id info.id) now)
      session_id info.id info
  else
    (message_updated_buffered s (msg_key session_id info.id) ts info now, [])

/-- The structural part types from which `_handle_message_part_updated`
infers an assistant role when no Message record is stored. -/
def structural_part_types : List String :=
  ["reasoning", "tool", "step-start", "step-finish", "patch", "agent",
   "retry", "compaction"]

/-- The stored role of the message record (`""` when absent), lowered. -/
def stored_role (s : HookState) (key : String) : String :=
  str_lower (((mlookup s.messages key).map MessageInfo.role).getD "")

/-- The role `_handle_message_part_updated` resolves for a part: the
stored role when known, else `assistant` for structural part types. -/
def part_role (s : HookState) (key : String) (part : MsgPart) : String :=
  if stored_role s key = "" ∧ structural_part_types.contains part.type then
    "assistant"
  else stored_role s key

/-- The `completed` flag `_handle_message_part_updated` reads from the
stored record (`False` when no record is stored). -/
def stored_completed (s : HookState) (key : String) : Bool :=
  (((mlookup s.messages key).map MessageInfo.completed).getD false)

/-- The Message record `_handle_message_part_updated` passes to the
emission gate: the stored one, or a minimal assistant record. -/
def stored_info_or_default (s : HookState) (key message_id : String) :
    MessageInfo :=
  (mlookup s.messages key).getD
    { id := message_id, role := "assistant", parentID := "",
      completed := false }

/-- `_handle_message_part_updated`.  As with the message handler, each
branch is the composition of the update steps the source executes on its
single mutable `state`; tests on maps no earlier step of the branch
touches are phrased on the incoming state.  In the `step-finish` branch
the finish-seen flag has just been written, so the source's
`completed or finish_seen` test is true and emission is always
attempted. -/
def handle_message_part_updated (sinkOk : Bool) (now : Nat) (s : HookState)
    (session_id : String) (ts : Nat) (part : MsgPart) :
    HookState × List TurnPayload :=
  if part.messageID = "" ∨ part.id = "" then (s, [])
  else if is_older_event s.part_last_seen
      (msg_key session_id part.messageID ++ ":" ++ part.id) ts then (s, [])
  else if (mlookup s.emitted (turn_key session_id part.messageID)).isSome
      then
    (cleanup_emitted_message_buffers
        (accept_part s (msg_key session_id part.messageID ++ ":" ++ part.id)
          ts)
        session_id part.messageID, [])
  else if stored_role s (msg_key session_id part.messageID) = ""
      ∧ part.type = "text" then
    ({ accept_part s (msg_key session_id part.messageID ++ ":" ++ part.id)
          ts with
       pending_parts := bucket_put s.pending_parts
                          (msg_key session_id part.messageID) part }, [])
  else if part_role s (msg_key session_id part.messageID) part ≠ "assistant"
      then
    ({ accept_part s (msg_key session_id part.messageID ++ ":" ++ part.id)
          ts with
       user_parts := bucket_put s.user_parts
                       (msg_key session_id part.messageID) part }, [])
  else if part.type = "step-finish" then
    maybe_emit_assistant_turn sinkOk now
      (mark_finish_seen
        ({ accept_part s
              (msg_key session_id part.messageID ++ ":" ++ part.id) ts with
           assistant_parts := bucket_put s.assistant_parts
                                (msg_key session_id part.messageID) part })
        (msg_key session_id part.messageID) now)
      session_id part.messageID
      (stored_info_or_default s (msg_key session_id part.messageID)
        part.messageID)
  else if stored_completed s (msg_key session_id part.messageID)
      || (mlookup s.assistant_finish_seen
            (msg_key session_id part.messageID)).isSome then
    maybe_emit_assistant_turn sinkOk now
      ({ accept_part s (msg_key session_id part.messageID ++ ":" ++ part.id)
            ts with
         assistant_parts := bucket_put s.assistant_parts
                              (msg_key session_id part.messageID) part })
      session_id part.messageID
      (stored_info_or_default s (msg_key session_id part.messageID)
        part.messageID)
  else
    ({ accept_part s (msg_key session_id part.messageID ++ ":" ++ part.id)
          ts with
       assistant_parts := bucket_put s.assistant_parts
                            (msg_key session_id part.messageID) part }, [])

/-- One iteration of the flush loop of `_flush_pending_assistant_turns`
for one snapshot key. -/
def flush_step (sinkOk : Bool) (now : Nat) (session_id key : String)
    (s : HookState) : HookState × List TurnPayload :=
  if ¬ str_startsWith key (session_id ++ ":") then (s, [])
  else if str_drop key (session_id ++ ":").length = "" then (s, [])
  else if (mlookup s.emitted
      (turn_key session_id
        (str_drop key (session_id ++ ":").length))).isSome then
    (cleanup_emitted_message_buffers s session_id
        (str_drop key (session_id ++ ":").length), [])
  else if ((mlookup s.assistant_parts key).getD []).isEmpty then (s, [])
  else
    maybe_emit_assistant_turn sinkOk now s session_id
      (str_drop key (session_id ++ ":").length)
      (stored_info_or_default s key
        (str_drop key (session_id ++ ":").length))

/-- The flush loop over the snapshot of `assistant_parts` keys. -/
def flush_go (sinkOk : Bool) (now : Nat) (session_id : String) :
    List String → HookState → HookState × List TurnPayload
  | [], s => (s, [])
  | k :: ks, s =>
    ((flush_go sinkOk now session_id ks
        (flush_step sinkOk now session_id k s).1).1,
     (flush_step sinkOk now session_id k s).2 ++
       (flush_go sinkOk now session_id ks
         (flush_step sinkOk now session_id k s).1).2)

/-- `_flush_pending_assistant_turns`: scan the session's buffered
assistant messages (keys snapshotted up front, as `list(dict.keys())`
does) and attempt emission for each. -/
def flush_pending_assistant_turns (sinkOk : Bool) (now : Nat)
    (s : HookState) (session_id : String) : HookState × List TurnPayload :=
  if session_id = "" ∨ session_id = "unknown-session" then (s, [])
  else flush_go sinkOk now session_id (s.assistant_parts.map Prod.fst) s

/-! ## Top-level dispatch (`main`'s with-lock body) -/

/-- A normalized event, as produced by the event normalizer: the event
name together with the session id and the event-specific payload. -/
inductive Event where
  | messageUpdated (session_id : String) (info : MessageInfo)
  | messagePartUpdated (session_id : String) (part : MsgPart)
  | sessionCreated (session_id : String)
  | sessionIdle (session_id : String)
  | sessionError (session_id : String)
  | sessionCompacted (session_id : String)
  | otherEvent
deriving DecidableEq, Repr

/-- The session-terminal lifecycle event names. -/
def terminal_lifecycle_events : List String :=
  ["session.idle", "session.error", "session.compacted"]

/-- The session-lifecycle update of `main`: last write wins when the
event is not older than the stored instant. -/
def update_session_lifecycle (s : HookState) (session_id name : String)
    (ts : Nat) : HookState :=
  match mlookup s.session_lifecycle session_id with
  | none =>
    { s with session_lifecycle :=
        minsert s.session_lifecycle session_id (name, ts) }
  | some prev =>
    if prev.2 ≤ ts then
      { s with session_lifecycle :=
          minsert s.session_lifecycle session_id (name, ts) }
    else s

/-- One hook invocation: the normalized event, its captured-at instant
`ts`, the wall-clock instant `now`, and whether the sink calls succeed. -/
structure Step where
  sinkOk : Bool
  now : Nat
  ts : Nat
  event : Event
deriving DecidableEq, Repr

/-- The post-part flush of `main`: when the session's recorded lifecycle
state is terminal, re-run the pending flush after the part handler. -/
def post_part_flush (sinkOk : Bool) (now : Nat) (session_id : String)
    (r : HookState × List TurnPayload) : HookState × List TurnPayload :=
  match mlookup r.1.session_lifecycle session_id with
  | some last =>
    if terminal_lifecycle_events.contains last.1 then
      ((flush_pending_assistant_turns sinkOk now r.1 session_id).1,
       r.2 ++ (flush_pending_assistant_turns sinkOk now r.1 session_id).2)
    else r
  | none => r

/-- The with-lock body of `main` for one invocation: dispatch to the
matching handler, run the post-part flush when the session's recorded
lifecycle state is terminal, update the lifecycle map on session events
and run the lifecycle flush on terminal ones.  Lifecycle traces are not
turn payloads and are not recorded. -/
def process_event (st : Step) (s : HookState) :
    HookState × List TurnPayload :=
  match st.event with
  | .messageUpdated sid info =>
    handle_message_updated st.sinkOk st.now s sid st.ts info
  | .messagePartUpdated sid part =>
    post_part_flush st.sinkOk st.now sid
      (handle_message_part_updated st.sinkOk st.now s sid st.ts part)
  | .sessionCreated sid =>
    (update_session_lifecycle s sid "session.created" st.ts, [])
  | .sessionIdle sid =>
    flush_pending_assistant_turns st.sinkOk st.now
      (update_session_lifecycle s sid "session.idle" st.ts) sid
  | .sessionError sid =>
    flush_pending_assistant_turns st.sinkOk st.now
      (update_session_lifecycle s sid "session.error" st.ts) sid
  | .sessionCompacted sid =>
    flush_pending_assistant_turns st.sinkOk st.now
      (update_session_lifecycle s sid "session.compacted" st.ts) sid
  | .otherEvent => (s, [])

/-- A whole event sequence, one invocation after the other, collecting
every payload the sink received. -/
def process_steps (s : HookState) : List Step → HookState × List TurnPayload
  | [] => (s, [])
  | st :: rest =>
    ((process_steps (process_event st s).1 rest).1,
     (process_event st s).2 ++ (process_steps (process_event st s).1 rest).2)

/-! ## Order lemmas for the `(timestamp, id)` sort key -/

theorem chars_le_total : ∀ (a b : List Char),
    chars_le a b = false → chars_le b a = true := by
  intro a
  induction a with
  | nil => intro b h; simp [chars_le] at h
  | cons x xs ih =>
    intro b h
    cases b with
    | nil => simp [chars_le]
    | cons y ys =>
      simp only [chars_le] at h ⊢
      by_cases hxy : x < y
      · simp [hxy] at h
      · by_cases heq : x = y
        · subst heq
          simp [hxy] at h
          simp [hxy, ih ys h]
        · have hyx : y < x := by
            rcases lt_trichotomy x y with h1 | h1 | h1
            · exact absurd h1 hxy
            · exact absurd h1 heq
            · exact h1
          simp [hyx]

theorem chars_le_trans : ∀ (a b c : List Char),
    chars_le a b = true → chars_le b c = true → chars_le a c = true := by
  intro a
  induction a with
  | nil => intro b c _ _; simp [chars_le]
  | cons x xs ih =>
    intro b c h1 h2
    cases b with
    | nil => simp [chars_le] at h1
    | cons y ys =>
      cases c with
      | nil => simp [chars_le] at h2
      | cons z zs =>
        simp only [chars_le] at h1 h2 ⊢
        by_cases hxy : x < y
        · by_cases hyz : y < z
          · simp [lt_trans hxy hyz]
          · by_cases heq : y = z
            · subst heq; simp [hxy]
            · simp [hyz, heq] at h2
        · by_cases heq : x = y
          · subst heq
            simp [hxy] at h1
            by_cases hxz : x < z
            · simp [hxz]
            · by_cases heq2 : x = z
              · subst heq2
                simp [hxz] at h2
                simp [hxz, ih ys zs h1 h2]
              · simp [hxz, heq2] at h2
          · simp [hxy, heq] at h1

theorem str_le_total (a b : String) (h : str_le a b = false) :
    str_le b a = true :=
  chars_le_total a.data b.data h

theorem str_le_trans (a b c : String) (h1 : str_le a b = true)
    (h2 : str_le b c = true) : str_le a c = true :=
  chars_le_trans a.data b.data c.data h1 h2

theorem key_le_total (a b : Nat × String) (h : key_le a b = false) :
    key_le b a = true := by
  rcases Nat.lt_trichotomy a.1 b.1 with hlt | heq | hgt
  · exfalso
    simp [key_le, hlt] at h
  · have hs : str_le a.2 b.2 = false := by
      cases hc : str_le a.2 b.2
      · rfl
      · exfalso; simp [key_le, heq, hc] at h
    simp [key_le, heq, Nat.lt_irrefl, str_le_total a.2 b.2 hs]
  · simp [key_le, hgt]

theorem key_le_trans (a b c : Nat × String) (h1 : key_le a b = true)
    (h2 : key_le b c = true) : key_le a c = true := by
  simp only [key_le, Bool.or_eq_true, Bool.and_eq_true, decide_eq_true_eq,
    beq_iff_eq] at h1 h2 ⊢
  rcases h1 with h1 | ⟨hb, hs1⟩
  · rcases h2 with h2 | ⟨hb2, _⟩
    · exact Or.inl (Nat.lt_trans h1 h2)
    · exact Or.inl (hb2 ▸ h1)
  · rcases h2 with h2 | ⟨hb2, hs2⟩
    · exact Or.inl (hb ▸ h2)
    · exact Or.inr ⟨hb.trans hb2, str_le_trans _ _ _ hs1 hs2⟩

theorem text_row_le_total (a b : TextRow) (h : text_row_le a b = false) :
    text_row_le b a = true := key_le_total _ _ h

theorem text_row_le_trans (a b c : TextRow) (h1 : text_row_le a b = true)
    (h2 : text_row_le b c = true) : text_row_le a c = true :=
  key_le_trans _ _ _ h1 h2

theorem reasoning_row_le_total (a b : ReasoningRow)
    (h : reasoning_row_le a b = false) : reasoning_row_le b a = true :=
  key_le_total _ _ h

theorem reasoning_row_le_trans (a b c : ReasoningRow)
    (h1 : reasoning_row_le a b = true) (h2 : reasoning_row_le b c = true) :
    reasoning_row_le a c = true := key_le_trans _ _ _ h1 h2

theorem tool_row_le_total (a b : ToolRow) (h : tool_row_le a b = false) :
    tool_row_le b a = true := key_le_total _ _ h

theorem tool_row_le_trans (a b c : ToolRow) (h1 : tool_row_le a b = true)
    (h2 : tool_row_le b c = true) : tool_row_le a c = true :=
  key_le_trans _ _ _ h1 h2

/-! ## Relating the assembler to the specification wording -/

/-- The text row of a part (used to connect the implementation's
row-level pipeline with the spec's part-level description). -/
def text_part_to_row (now : Nat) (p : MsgPart) : TextRow :=
  { timestamp := p.timeStart.getD now, id := p.id, text := p.text.getD "" }

theorem filterMap_text_row_eq (now : Nat) (l : List MsgPart) :
    l.filterMap (text_row now) =
      (l.filter spec_is_nonempty_text).map (text_part_to_row now) := by
  induction l with
  | nil => simp
  | cons p ps ih =>
    by_cases ht : p.type = "text"
    · cases hx : p.text with
      | none =>
        have hs : spec_is_nonempty_text p = false := by
          simp [spec_is_nonempty_text, hx]
        simp [List.filterMap_cons, List.filter_cons, text_row, ht, hx, hs, ih]
      | some t =>
        by_cases hte : t = ""
        · have hs : spec_is_nonempty_text p = false := by
            simp [spec_is_nonempty_text, hx, hte]
          simp [List.filterMap_cons, List.filter_cons, text_row, ht, hx,
            hte, hs, ih]
        · have hs : spec_is_nonempty_text p = true := by
            simp [spec_is_nonempty_text, ht, hx, hte]
          simp [List.filterMap_cons, List.filter_cons, text_row, ht, hx,
            hte, hs, ih, text_part_to_row]
    · have hs : spec_is_nonempty_text p = false := by
        simp [spec_is_nonempty_text, ht]
      simp [List.filterMap_cons, List.filter_cons, text_row, ht, hs, ih]

theorem filterMap_tool_row_eq (now : Nat) (l : List MsgPart) :
    l.filterMap (tool_row now) =
      (l.filter spec_is_terminal_tool).map (spec_tool_invocation now) := by
  induction l with
  | nil => simp
  | cons p ps ih =>
    by_cases ht : p.type = "tool"
    · cases hx : p.state with
      | none =>
        have hs : spec_is_terminal_tool p = false := by
          simp [spec_is_terminal_tool, hx]
        simp [List.filterMap_cons, List.filter_cons, tool_row, ht, hx, hs, ih]
      | some st =>
        by_cases hterm : st.status = "completed" ∨ st.status = "error"
        · have hs : spec_is_terminal_tool p = true := by
            rcases hterm with h | h <;>
              simp [spec_is_terminal_tool, ht, hx, h]
          simp [List.filterMap_cons, List.filter_cons, tool_row, ht, hx,
            hterm, hs, ih, spec_tool_invocation]
        · have hs : spec_is_terminal_tool p = false := by
            push_neg at hterm
            simp [spec_is_terminal_tool, hx, hterm.1, hterm.2]
          simp [List.filterMap_cons, List.filter_cons, tool_row, ht, hx,
            hterm, hs, ih]
    · have hs : spec_is_terminal_tool p = false := by
        simp [spec_is_terminal_tool, ht]
      simp [List.filterMap_cons, List.filter_cons, tool_row, ht, hs, ih]

theorem text_row_key_agrees (now : Nat) (a b : MsgPart) :
    text_row_le (text_part_to_row now a) (text_part_to_row now b)
      = spec_part_le now a b := rfl

theorem sorted_text_rows_eq (now : Nat) (l : List MsgPart) :
    sortOrd text_row_le (l.filterMap (text_row now)) =
      (sortOrd (spec_part_le now) (l.filter spec_is_nonempty_text)).map
        (text_part_to_row now) := by
  rw [filterMap_text_row_eq]
  exact sortOrd_map_comm (text_part_to_row now) (spec_part_le now)
    text_row_le (text_row_key_agrees now) (l.filter spec_is_nonempty_text)

/-! ## Concrete fixtures used by witnesses and counterexamples -/

/-- A concrete text part. -/
def fixture_text_part (mid pid txt : String) (ts : Nat) : MsgPart :=
  { id := pid, messageID := mid, type := "text", text := some txt,
    timeStart := some ts, tool := none, state := none }

/-- A concrete reasoning part. -/
def fixture_reasoning_part (mid pid txt : String) (ts : Nat) : MsgPart :=
  { id := pid, messageID := mid, type := "reasoning", text := some txt,
    timeStart := some ts, tool := none, state := none }

/-- A concrete assistant message record. -/
def fixture_info (mid role parent : String) (c : Bool) : MessageInfo :=
  { id := mid, role := role, parentID := parent, completed := c }

/-- C7's counterexample parts map: one text part whose content carries
leading and trailing spaces. -/
def c7_parts : PartsMap := [("p1", fixture_text_part "m1" "p1" " hi " 1)]

/-- **C7** (amended): for every buffered parts map, the assembled output
text equals the newline-join of the non-empty text contents of exactly
the text-typed parts, ordered ascending by (start timestamp, part id),
*with leading and trailing whitespace stripped*; the input text is
produced from the user parts map by the same function. -/
theorem c7_text_assembly_order (m : PartsMap) (now : Nat) :
    extract_text_from_parts m now = str_strip (spec_ordered_text_join m now)
    ∧ (build_turn_details m now).1 =
        str_strip (spec_ordered_text_join m now) := by
  have h := sorted_text_rows_eq now (part_values m)
  constructor
  · unfold extract_text_from_parts spec_ordered_text_join
    dsimp only
    rw [h, List.map_map]
    rfl
  · unfold build_turn_details spec_ordered_text_join
    dsimp only
    rw [h, List.map_map]
    rfl

/-- **C7 counterexample**: the claim as stated (without the final
whitespace strip) fails on a parts map whose single text part is
`" hi "`: the code assembles `"hi"`, the claimed newline-join is
`" hi "`. -/
theorem c7_counterexample :
    extract_text_from_parts c7_parts 0 ≠ spec_ordered_text_join c7_parts 0
    ∧ extract_text_from_parts c7_parts 0 = "hi"
    ∧ spec_ordered_text_join c7_parts 0 = " hi " := by
  refine ⟨?_, by decide, by decide⟩
  decide

/-- **C8**: for every buffered assistant parts map, the assembled
tool-invocation list is a permutation of exactly the tool-typed parts in
terminal state (`completed` or `error`), each mapped to the record with
the tool name, serialized input, status, timestamp, and output text
(state output when completed, state error when errored), and it is
ordered ascending by (timestamp, part id). -/
theorem c8_terminal_tool_list (m : PartsMap) (now : Nat) :
    List.Perm (build_turn_details m now).2.2
      (((part_values m).filter spec_is_terminal_tool).map
        (spec_tool_invocation now))
    ∧ ((build_turn_details m now).2.2).Pairwise
        (fun a b => tool_row_le a b = true) := by
  have hb : (build_turn_details m now).2.2 =
      sortOrd tool_row_le ((part_values m).filterMap (tool_row now)) := by
    simp [build_turn_details]
  constructor
  · rw [hb, ← filterMap_tool_row_eq]
    exact sortOrd_perm _ _
  · rw [hb]
    exact sortOrd_pairwise tool_row_le tool_row_le_total tool_row_le_trans _


/-! ## Basic lemmas about the emission gate -/

theorem msg_key_ne_empty (a b : String) : msg_key a b ≠ "" := by
  intro hc
  have h1 : (msg_key a b).length = a.length + ":".length + b.length := by
    simp [msg_key, String.length_append]
  rw [hc] at h1
  have h2 : ("" : String).length = 0 := rfl
  have h3 : (":" : String).length = 1 := rfl
  omega

theorem maybe_emit_of_emitted (k : Bool) (n : Nat) (s : HookState)
    (a b : String) (i : MessageInfo)
    (h : (mlookup s.emitted (turn_key a b)).isSome = true) :
    maybe_emit_assistant_turn k n s a b i = (s, []) := by
  unfold maybe_emit_assistant_turn
  rw [if_pos h]

theorem maybe_emit_of_empty (k : Bool) (n : Nat) (s : HookState)
    (a b : String) (i : MessageInfo) (hd : turn_is_empty s a b n = true) :
    maybe_emit_assistant_turn k n s a b i = (s, []) := by
  unfold maybe_emit_assistant_turn
  by_cases he : (mlookup s.emitted (turn_key a b)).isSome = true
  · rw [if_pos he]
  · rw [if_neg he, if_pos hd]

theorem maybe_emit_result (k : Bool) (n : Nat) (s : HookState)
    (a b : String) (i : MessageInfo)
    (he : (mlookup s.emitted (turn_key a b)).isSome = false)
    (hd : turn_is_empty s a b n = false) :
    maybe_emit_assistant_turn k n s a b i =
      (purge_turn_buffers (mark_emitted s (turn_key a b) n) (msg_key a b)
         (user_key_of a i),
       if k then [emitted_payload s a b i n] else []) := by
  unfold maybe_emit_assistant_turn
  rw [if_neg (by simp [he]), if_neg (by simp [hd])]

theorem purge_frame (s : HookState) (akey ukey : String) :
    (purge_turn_buffers s akey ukey).messages = s.messages
    ∧ (purge_turn_buffers s akey ukey).message_last_seen =
        s.message_last_seen
    ∧ (purge_turn_buffers s akey ukey).part_last_seen = s.part_last_seen
    ∧ (purge_turn_buffers s akey ukey).pending_parts = s.pending_parts
    ∧ (purge_turn_buffers s akey ukey).emitted = s.emitted
    ∧ (purge_turn_buffers s akey ukey).session_lifecycle =
        s.session_lifecycle :=
  ⟨rfl, rfl, rfl, rfl, rfl, rfl⟩

theorem maybe_emit_frame (k : Bool) (n : Nat) (s : HookState)
    (a b : String) (i : MessageInfo) :
    (maybe_emit_assistant_turn k n s a b i).1.messages = s.messages
    ∧ (maybe_emit_assistant_turn k n s a b i).1.message_last_seen =
        s.message_last_seen
    ∧ (maybe_emit_assistant_turn k n s a b i).1.part_last_seen =
        s.part_last_seen
    ∧ (maybe_emit_assistant_turn k n s a b i).1.pending_parts =
        s.pending_parts
    ∧ (maybe_emit_assistant_turn k n s a b i).1.session_lifecycle =
        s.session_lifecycle := by
  unfold maybe_emit_assistant_turn
  split
  · exact ⟨rfl, rfl, rfl, rfl, rfl⟩
  · split
    · exact ⟨rfl, rfl, rfl, rfl, rfl⟩
    · exact ⟨rfl, rfl, rfl, rfl, rfl⟩

theorem maybe_emit_emitted_mono (k : Bool) (n : Nat) (s : HookState)
    (a b : String) (i : MessageInfo) (key : String)
    (h : (mlookup s.emitted key).isSome = true) :
    (mlookup (maybe_emit_assistant_turn k n s a b i).1.emitted key).isSome
      = true := by
  unfold maybe_emit_assistant_turn
  split
  · exact h
  · split
    · exact h
    · exact mlookup_minsert_isSome _ _ _ _ h

theorem cleanup_frame (s : HookState) (a b : String) :
    (cleanup_emitted_message_buffers s a b).messages = s.messages
    ∧ (cleanup_emitted_message_buffers s a b).message_last_seen =
        s.message_last_seen
    ∧ (cleanup_emitted_message_buffers s a b).part_last_seen =
        s.part_last_seen
    ∧ (cleanup_emitted_message_buffers s a b).pending_parts =
        s.pending_parts
    ∧ (cleanup_emitted_message_buffers s a b).emitted = s.emitted
    ∧ (cleanup_emitted_message_buffers s a b).user_parts = s.user_parts
    ∧ (cleanup_emitted_message_buffers s a b).session_lifecycle =
        s.session_lifecycle :=
  ⟨rfl, rfl, rfl, rfl, rfl, rfl, rfl⟩

/-- **C4**: when the assembled turn of the assistant message's buffered
parts has empty output text, no reasoning and no terminal tool calls,
the emission gate returns without a sink call, without writing the
emitted marker, and without touching any buffer. -/
theorem c4_empty_turn_suppression (sinkOk : Bool) (now : Nat)
    (s : HookState) (sid mid : String) (info : MessageInfo)
    (h : build_turn_details
        ((mlookup s.assistant_parts (msg_key sid mid)).getD []) now
        = ("", [], [])) :
    maybe_emit_assistant_turn sinkOk now s sid mid info = (s, []) := by
  have hd : turn_is_empty s sid mid now = true := by
    simp [turn_is_empty, h]
  exact maybe_emit_of_empty sinkOk now s sid mid info hd

/-- Witness for C4 at a concrete empty buffer. -/
theorem c4_empty_turn_suppression_witness :
    build_turn_details
        ((mlookup initial_state.assistant_parts (msg_key "s" "m")).getD []) 7
        = ("", [], [])
    ∧ maybe_emit_assistant_turn true 7 initial_state "s" "m"
        (fixture_info "m" "assistant" "" true) = (initial_state, []) :=
  ⟨by decide,
   c4_empty_turn_suppression true 7 initial_state "s" "m"
     (fixture_info "m" "assistant" "" true) (by decide)⟩

/-- C2's counterexample state: one buffered assistant text part, ready
to emit. -/
def c2_state : HookState :=
  { initial_state with
    assistant_parts := [("s:m", [("p1", fixture_text_part "m" "p1" "out" 1)])] }

/-- **C2 counterexample**: with a failing sink, the emission attempt
delivers nothing to the sink, yet the emitted marker *is* recorded and
the assistant buffers *are* purged — the claim's "marker withheld,
buffers retained" is false on the code (the source catches the failure
inside `_emit_turn_trace`, and `_maybe_emit_assistant_turn` then records
and purges unconditionally). -/
theorem c2_counterexample :
    (maybe_emit_assistant_turn false 50 c2_state "s" "m"
        (fixture_info "m" "assistant" "" true)).2 = []
    ∧ (mlookup (maybe_emit_assistant_turn false 50 c2_state "s" "m"
        (fixture_info "m" "assistant" "" true)).1.emitted
        (turn_key "s" "m")).isSome = true
    ∧ mlookup (maybe_emit_assistant_turn false 50 c2_state "s" "m"
        (fixture_info "m" "assistant" "" true)).1.assistant_parts
        (msg_key "s" "m") = none :=
  ⟨by decide, by decide, by decide⟩

/-- **C2** (amended): a failing sink call is swallowed inside the trace
emitter, so the gate performs exactly the successful state transition —
marker recorded, buffers purged — while the sink receives nothing; no
retry is possible. -/
theorem c2_sink_failure_still_marks (now : Nat) (s : HookState)
    (sid mid : String) (info : MessageInfo) :
    (maybe_emit_assistant_turn false now s sid mid info).1 =
      (maybe_emit_assistant_turn true now s sid mid info).1
    ∧ (maybe_emit_assistant_turn false now s sid mid info).2 = [] := by
  constructor
  · unfold maybe_emit_assistant_turn
    split
    · rfl
    · split
      · rfl
      · rfl
  · unfold maybe_emit_assistant_turn
    split
    · rfl
    · split
      · rfl
      · rfl

/-- **C5**: every successful turn emission (the sink actually received
the payload) leaves no entry in `assistant_parts`, `message_events` or
`assistant_finish_seen` for the assistant message key, and — when the
assistant record links a user message — no entry in `user_parts` or
`message_events` for the user key. -/
theorem c5_post_emission_purge (now : Nat) (s : HookState)
    (sid mid : String) (info : MessageInfo)
    (h : (maybe_emit_assistant_turn true now s sid mid info).2 ≠ []) :
    mlookup (maybe_emit_assistant_turn true now s sid mid
        info).1.assistant_parts (msg_key sid mid) = none
    ∧ mlookup (maybe_emit_assistant_turn true now s sid mid
        info).1.message_events (msg_key sid mid) = none
    ∧ mlookup (maybe_emit_assistant_turn true now s sid mid
        info).1.assistant_finish_seen (msg_key sid mid) = none
    ∧ (info.parentID ≠ "" →
        mlookup (maybe_emit_assistant_turn true now s sid mid
            info).1.user_parts (msg_key sid info.parentID) = none
        ∧ mlookup (maybe_emit_assistant_turn true now s sid mid
            info).1.message_events (msg_key sid info.parentID) = none) := by
  by_cases he : (mlookup s.emitted (turn_key sid mid)).isSome = true
  · rw [maybe_emit_of_emitted true now s sid mid info he] at h
    exact absurd rfl h
  · have he' : (mlookup s.emitted (turn_key sid mid)).isSome = false := by
      revert he
      cases (mlookup s.emitted (turn_key sid mid)).isSome <;> simp
    by_cases hd : turn_is_empty s sid mid now = true
    · rw [maybe_emit_of_empty true now s sid mid info hd] at h
      exact absurd rfl h
    · have hd' : turn_is_empty s sid mid now = false := by
        revert hd
        cases turn_is_empty s sid mid now <;> simp
      rw [maybe_emit_result true now s sid mid info he' hd']
      refine ⟨?_, ?_, ?_, ?_⟩
      · exact mlookup_mpop_self _ _
      · by_cases hp : info.parentID = ""
        · have hu : user_key_of sid info = "" := by
            simp [user_key_of, hp]
          simp [purge_turn_buffers, mark_emitted, hu, mlookup_mpop_self]
        · have hu : user_key_of sid info = msg_key sid info.parentID := by
            simp [user_key_of, hp]
          have hne := msg_key_ne_empty sid info.parentID
          simp only [purge_turn_buffers, mark_emitted, hu, ne_eq, hne,
            not_false_eq_true, if_true, ite_true]
          exact mlookup_mpop_none _ _ _ (mlookup_mpop_self _ _)
      · exact mlookup_mpop_self _ _
      · intro hp
        have hu : user_key_of sid info = msg_key sid info.parentID := by
          simp [user_key_of, hp]
        have hne := msg_key_ne_empty sid info.parentID
        constructor
        · simp only [purge_turn_buffers, mark_emitted, hu, ne_eq, hne,
            not_false_eq_true, if_true, ite_true]
          exact mlookup_mpop_self _ _
        · simp only [purge_turn_buffers, mark_emitted, hu, ne_eq, hne,
            not_false_eq_true, if_true, ite_true]
          exact mlookup_mpop_self _ _

/-- C5's witness state: a ready assistant message `a1` with parent user
message `u1`, both with buffered parts and event history. -/
def c5_state : HookState :=
  { initial_state with
    assistant_parts :=
      [("s:a1", [("p2", fixture_text_part "a1" "p2" "hello" 3)])],
    user_parts := [("s:u1", [("p1", fixture_text_part "u1" "p1" "hi" 1)])],
    message_events :=
      [("s:a1", [(1, fixture_info "a1" "assistant" "u1" true)]),
       ("s:u1", [(0, fixture_info "u1" "user" "" false)])],
    assistant_finish_seen := [("s:a1", 5)] }

/-- Witness for C5 at a concrete successful emission. -/
theorem c5_post_emission_purge_witness :
    mlookup (maybe_emit_assistant_turn true 9 c5_state "s" "a1"
        (fixture_info "a1" "assistant" "u1" true)).1.assistant_parts
        (msg_key "s" "a1") = none
    ∧ mlookup (maybe_emit_assistant_turn true 9 c5_state "s" "a1"
        (fixture_info "a1" "assistant" "u1" true)).1.user_parts
        (msg_key "s" "u1") = none :=
  ⟨(c5_post_emission_purge 9 c5_state "s" "a1"
      (fixture_info "a1" "assistant" "u1" true) (by decide)).1,
   ((c5_post_emission_purge 9 c5_state "s" "a1"
      (fixture_info "a1" "assistant" "u1" true) (by decide)).2.2.2
      (by decide)).1⟩

/-! ## Frame lemmas for the handler building blocks -/

theorem reconcile_frame (s : HookState) (key role : String) :
    (reconcile_pending s key role).messages = s.messages
    ∧ (reconcile_pending s key role).message_events = s.message_events
    ∧ (reconcile_pending s key role).message_last_seen = s.message_last_seen
    ∧ (reconcile_pending s key role).part_last_seen = s.part_last_seen
    ∧ (reconcile_pending s key role).assistant_finish_seen =
        s.assistant_finish_seen
    ∧ (reconcile_pending s key role).emitted = s.emitted
    ∧ (reconcile_pending s key role).session_lifecycle =
        s.session_lifecycle := by
  unfold reconcile_pending
  split
  · exact ⟨rfl, rfl, rfl, rfl, rfl, rfl, rfl⟩
  · split
    · exact ⟨rfl, rfl, rfl, rfl, rfl, rfl, rfl⟩
    · split
      · exact ⟨rfl, rfl, rfl, rfl, rfl, rfl, rfl⟩
      · exact ⟨rfl, rfl, rfl, rfl, rfl, rfl, rfl⟩

theorem message_updated_buffered_frame (s : HookState) (key : String)
    (ts : Nat) (info : MessageInfo) (now : Nat) :
    (message_updated_buffered s key ts info now).message_last_seen =
        minsert s.message_last_seen key ts
    ∧ (message_updated_buffered s key ts info now).messages =
        minsert s.messages key info
    ∧ (message_updated_buffered s key ts info now).part_last_seen =
        s.part_last_seen
    ∧ (message_updated_buffered s key ts info now).emitted = s.emitted := by
  unfold message_updated_buffered
  refine ⟨?_, ?_, ?_, ?_⟩
  · rw [(reconcile_frame _ _ _).2.2.1]; rfl
  · rw [(reconcile_frame _ _ _).1]; rfl
  · rw [(reconcile_frame _ _ _).2.2.2.1]; rfl
  · rw [(reconcile_frame _ _ _).2.2.2.2.2.1]; rfl

theorem handle_message_updated_stale (sinkOk : Bool) (now : Nat)
    (s : HookState) (sid : String) (ts : Nat) (info : MessageInfo)
    (hid : info.id ≠ "")
    (h : is_older_event s.message_last_seen (msg_key sid info.id) ts
        = true) :
    handle_message_updated sinkOk now s sid ts info = (s, []) := by
  unfold handle_message_updated
  rw [if_neg hid, if_pos h]

theorem handle_message_updated_last_seen (sinkOk : Bool) (now : Nat)
    (s : HookState) (sid : String) (ts : Nat) (info : MessageInfo)
    (hid : info.id ≠ "")
    (h : is_older_event s.message_last_seen (msg_key sid info.id) ts
        = false) :
    (handle_message_updated sinkOk now s sid ts
        info).1.message_last_seen =
      minsert s.message_last_seen (msg_key sid info.id) ts := by
  unfold handle_message_updated
  rw [if_neg hid, if_neg (by simp [h])]
  split
  · rfl
  · split
    · exact (message_updated_buffered_frame s _ ts info now).1
    · split
      · rw [(maybe_emit_frame _ _ _ _ _ _).2.1]
        exact (message_updated_buffered_frame s _ ts info now).1
      · exact (message_updated_buffered_frame s _ ts info now).1

theorem handle_part_updated_stale (sinkOk : Bool) (now : Nat)
    (s : HookState) (sid : String) (ts : Nat) (part : MsgPart)
    (hid : ¬ (part.messageID = "" ∨ part.id = ""))
    (h : is_older_event s.part_last_seen
        (msg_key sid part.messageID ++ ":" ++ part.id) ts = true) :
    handle_message_part_updated sinkOk now s sid ts part = (s, []) := by
  unfold handle_message_part_updated
  rw [if_neg hid, if_pos h]

theorem handle_part_updated_last_seen (sinkOk : Bool) (now : Nat)
    (s : HookState) (sid : String) (ts : Nat) (part : MsgPart)
    (hid : ¬ (part.messageID = "" ∨ part.id = ""))
    (h : is_older_event s.part_last_seen
        (msg_key sid part.messageID ++ ":" ++ part.id) ts = false) :
    (handle_message_part_updated sinkOk now s sid ts
        part).1.part_last_seen =
      minsert s.part_last_seen
        (msg_key sid part.messageID ++ ":" ++ part.id) ts := by
  unfold handle_message_part_updated
  rw [if_neg hid, if_neg (by simp [h])]
  split
  · rfl
  · split
    · rfl
    · split
      · rfl
      · split
        · rw [(maybe_emit_frame _ _ _ _ _ _).2.2.1]; rfl
        · split
          · rw [(maybe_emit_frame _ _ _ _ _ _).2.2.1]; rfl
          · rfl

/-- **C3**: for each handler, an event older than the stored last-seen
instant for its key is rejected with the state returned unchanged and no
sink call; otherwise the last-seen entry for that key is set to the
event's instant. -/
theorem c3_monotonic_acceptance (sinkOk : Bool) (now : Nat) (s : HookState)
    (sid : String) (ts : Nat) (info : MessageInfo) (part : MsgPart) :
    (info.id ≠ "" →
      is_older_event s.message_last_seen (msg_key sid info.id) ts = true →
      handle_message_updated sinkOk now s sid ts info = (s, []))
    ∧ (info.id ≠ "" →
      is_older_event s.message_last_seen (msg_key sid info.id) ts = false →
      mlookup (handle_message_updated sinkOk now s sid ts
          info).1.message_last_seen (msg_key sid info.id) = some ts)
    ∧ (¬ (part.messageID = "" ∨ part.id = "") →
      is_older_event s.part_last_seen
          (msg_key sid part.messageID ++ ":" ++ part.id) ts = true →
      handle_message_part_updated sinkOk now s sid ts part = (s, []))
    ∧ (¬ (part.messageID = "" ∨ part.id = "") →
      is_older_event s.part_last_seen
          (msg_key sid part.messageID ++ ":" ++ part.id) ts = false →
      mlookup (handle_message_part_updated sinkOk now s sid ts
          part).1.part_last_seen
          (msg_key sid part.messageID ++ ":" ++ part.id) = some ts) := by
  refine ⟨?_, ?_, ?_, ?_⟩
  · intro hid h
    exact handle_message_updated_stale sinkOk now s sid ts info hid h
  · intro hid h
    rw [handle_message_updated_last_seen sinkOk now s sid ts info hid h]
    exact mlookup_minsert_self _ _ _
  · intro hid h
    exact handle_part_updated_stale sinkOk now s sid ts part hid h
  · intro hid h
    rw [handle_part_updated_last_seen sinkOk now s sid ts part hid h]
    exact mlookup_minsert_self _ _ _

/-- C3's witness state: message key `s:m` last seen at instant 5. -/
def c3_state : HookState :=
  { initial_state with message_last_seen := [("s:m", 5)] }

/-- Witness for C3: a stale message event (instant 1 < 5) is a no-op; a
fresh part event records its instant. -/
theorem c3_monotonic_acceptance_witness :
    handle_message_updated true 7 c3_state "s" 1
        (fixture_info "m" "user" "" false) = (c3_state, [])
    ∧ mlookup (handle_message_part_updated true 7 c3_state "s" 9
        (fixture_text_part "m" "p1" "x" 9)).1.part_last_seen "s:m:p1"
        = some 9 :=
  ⟨(c3_monotonic_acceptance true 7 c3_state "s" 1
      (fixture_info "m" "user" "" false)
      (fixture_text_part "m" "p1" "x" 9)).1 (by decide) (by decide),
   (c3_monotonic_acceptance true 7 c3_state "s" 9
      (fixture_info "m" "user" "" false)
      (fixture_text_part "m" "p1" "x" 9)).2.2.2 (by decide) (by decide)⟩

theorem bucket_put_lookup (bucket : List (String × PartsMap))
    (key : String) (part : MsgPart) :
    mlookup ((mlookup (bucket_put bucket key part) key).getD [])
      part.id = some part := by
  simp [bucket_put, mlookup_minsert_self]

/-- **C9**: an accepted, not-yet-emitted part event whose owning message
has no stored role and whose type is neither `text` nor one of the
structural assistant types is stored in `user_parts` for the message key
— `pending_parts` and `assistant_parts` are untouched and no sink call
is made. -/
theorem c9_unknown_role_default_bucket (sinkOk : Bool) (now : Nat)
    (s : HookState) (sid : String) (ts : Nat) (part : MsgPart)
    (hid : ¬ (part.messageID = "" ∨ part.id = ""))
    (hold : is_older_event s.part_last_seen
        (msg_key sid part.messageID ++ ":" ++ part.id) ts = false)
    (hem : (mlookup s.emitted (turn_key sid part.messageID)).isSome
        = false)
    (hrole : stored_role s (msg_key sid part.messageID) = "")
    (hstruct : structural_part_types.contains part.type = false)
    (htext : part.type ≠ "text") :
    mlookup ((mlookup (handle_message_part_updated sinkOk now s sid ts
          part).1.user_parts (msg_key sid part.messageID)).getD [])
        part.id = some part
    ∧ (handle_message_part_updated sinkOk now s sid ts
        part).1.pending_parts = s.pending_parts
    ∧ (handle_message_part_updated sinkOk now s sid ts
        part).1.assistant_parts = s.assistant_parts
    ∧ (handle_message_part_updated sinkOk now s sid ts part).2 = [] := by
  have hpr : part_role s (msg_key sid part.messageID) part = "" := by
    unfold part_role
    rw [if_neg (fun hc =>
      absurd hc.2 (by rw [hstruct]; exact Bool.false_ne_true))]
    exact hrole
  unfold handle_message_part_updated
  rw [if_neg hid, if_neg (by simp [hold]), if_neg (by simp [hem]),
    if_neg (fun hc => htext hc.2),
    if_pos (by simp [hpr])]
  refine ⟨bucket_put_lookup _ _ _, rfl, rfl, rfl⟩

/-- Witness for C9: a `file`-typed part for an unknown-role message
lands in `user_parts`. -/
theorem c9_unknown_role_default_bucket_witness :
    mlookup ((mlookup (handle_message_part_updated true 3 initial_state
          "s" 1 { id := "p9", messageID := "m9", type := "file",
                  text := none, timeStart := some 1, tool := none,
                  state := none }).1.user_parts
          (msg_key "s" "m9")).getD [])
        "p9"
      = some { id := "p9", messageID := "m9", type := "file",
               text := none, timeStart := some 1, tool := none,
               state := none } :=
  (c9_unknown_role_default_bucket true 3 initial_state "s" 1
    { id := "p9", messageID := "m9", type := "file", text := none,
      timeStart := some 1, tool := none, state := none }
    (by decide) (by decide) (by decide) (by decide) (by decide)
    (by decide)).1

/-! ## Handler-level frame and monotonicity lemmas -/

theorem handle_message_updated_noid (sinkOk : Bool) (now : Nat)
    (s : HookState) (sid : String) (ts : Nat) (info : MessageInfo)
    (hid : info.id = "") :
    handle_message_updated sinkOk now s sid ts info = (s, []) := by
  unfold handle_message_updated
  rw [if_pos hid]

theorem handle_message_updated_messages (sinkOk : Bool) (now : Nat)
    (s : HookState) (sid : String) (ts : Nat) (info : MessageInfo)
    (hid : info.id ≠ "")
    (h : is_older_event s.message_last_seen (msg_key sid info.id) ts
        = false) :
    (handle_message_updated sinkOk now s sid ts info).1.messages =
      minsert s.messages (msg_key sid info.id) info := by
  unfold handle_message_updated
  rw [if_neg hid, if_neg (by simp [h])]
  split
  · rfl
  · split
    · exact (message_updated_buffered_frame s _ ts info now).2.1
    · split
      · rw [(maybe_emit_frame _ _ _ _ _ _).1]
        exact (message_updated_buffered_frame s _ ts info now).2.1
      · exact (message_updated_buffered_frame s _ ts info now).2.1

theorem handle_message_updated_part_last_seen (sinkOk : Bool) (now : Nat)
    (s : HookState) (sid : String) (ts : Nat) (info : MessageInfo) :
    (handle_message_updated sinkOk now s sid ts info).1.part_last_seen =
      s.part_last_seen := by
  unfold handle_message_updated
  split
  · rfl
  · split
    · rfl
    · split
      · rfl
      · split
        · exact (message_updated_buffered_frame s _ ts info now).2.2.1
        · split
          · rw [(maybe_emit_frame _ _ _ _ _ _).2.2.1]
            exact (message_updated_buffered_frame s _ ts info now).2.2.1
          · exact (message_updated_buffered_frame s _ ts info now).2.2.1

theorem handle_message_updated_emitted_mono (sinkOk : Bool) (now : Nat)
    (s : HookState) (sid : String) (ts : Nat) (info : MessageInfo)
    (key : String) (hk : (mlookup s.emitted key).isSome = true) :
    (mlookup (handle_message_updated sinkOk now s sid ts
        info).1.emitted key).isSome = true := by
  unfold handle_message_updated
  split
  · exact hk
  · split
    · exact hk
    · split
      · exact hk
      · split
        · rw [(message_updated_buffered_frame s _ ts info now).2.2.2]
          exact hk
        · split
          · apply maybe_emit_emitted_mono
            have heq :
                (mark_finish_seen
                  (message_updated_buffered s (msg_key sid info.id) ts
                    info now)
                  (msg_key sid info.id) now).emitted = s.emitted :=
              (message_updated_buffered_frame s (msg_key sid info.id) ts
                info now).2.2.2
            rw [heq]
            exact hk
          · rw [(message_updated_buffered_frame s _ ts info now).2.2.2]
            exact hk

theorem handle_part_updated_noid (sinkOk : Bool) (now : Nat)
    (s : HookState) (sid : String) (ts : Nat) (part : MsgPart)
    (hid : part.messageID = "" ∨ part.id = "") :
    handle_message_part_updated sinkOk now s sid ts part = (s, []) := by
  unfold handle_message_part_updated
  rw [if_pos hid]

theorem handle_part_updated_message_last_seen (sinkOk : Bool) (now : Nat)
    (s : HookState) (sid : String) (ts : Nat) (part : MsgPart) :
    (handle_message_part_updated sinkOk now s sid ts
        part).1.message_last_seen = s.message_last_seen := by
  unfold handle_message_part_updated
  split
  · rfl
  · split
    · rfl
    · split
      · rfl
      · split
        · rfl
        · split
          · rfl
          · split
            · rw [(maybe_emit_frame _ _ _ _ _ _).2.1]; rfl
            · split
              · rw [(maybe_emit_frame _ _ _ _ _ _).2.1]; rfl
              · rfl

theorem handle_part_updated_messages (sinkOk : Bool) (now : Nat)
    (s : HookState) (sid : String) (ts : Nat) (part : MsgPart) :
    (handle_message_part_updated sinkOk now s sid ts part).1.messages =
      s.messages := by
  unfold handle_message_part_updated
  split
  · rfl
  · split
    · rfl
    · split
      · rfl
      · split
        · rfl
        · split
          · rfl
          · split
            · rw [(maybe_emit_frame _ _ _ _ _ _).1]; rfl
            · split
              · rw [(maybe_emit_frame _ _ _ _ _ _).1]; rfl
              · rfl

theorem handle_part_updated_emitted_mono (sinkOk : Bool) (now : Nat)
    (s : HookState) (sid : String) (ts : Nat) (part : MsgPart)
    (key : String) (hk : (mlookup s.emitted key).isSome = true) :
    (mlookup (handle_message_part_updated sinkOk now s sid ts
        part).1.emitted key).isSome = true := by
  unfold handle_message_part_updated
  split
  · exact hk
  · split
    · exact hk
    · split
      · exact hk
      · split
        · exact hk
        · split
          · exact hk
          · split
            · exact maybe_emit_emitted_mono _ _ _ _ _ _ key hk
            · split
              · exact maybe_emit_emitted_mono _ _ _ _ _ _ key hk
              · exact hk

/-- **C10**: neither event handler, nor the emission gate, nor the
emitted-message cleanup ever removes an entry from `message_last_seen`,
`part_last_seen`, `messages` or `emitted`; the emission gate and the
cleanup moreover leave the last-seen maps, the Message records and the
`pending_parts` map exactly unchanged, so watermarks, records and
pending parts survive emission. -/
theorem c10_watermarks_survive (sinkOk : Bool) (now : Nat) (s : HookState)
    (sid : String) (ts : Nat) (info : MessageInfo) (part : MsgPart)
    (a b : String) (i : MessageInfo) :
    (∀ key, (mlookup s.message_last_seen key).isSome = true →
      (mlookup (handle_message_updated sinkOk now s sid ts
          info).1.message_last_seen key).isSome = true)
    ∧ (∀ key, (mlookup s.part_last_seen key).isSome = true →
      (mlookup (handle_message_updated sinkOk now s sid ts
          info).1.part_last_seen key).isSome = true)
    ∧ (∀ key, (mlookup s.messages key).isSome = true →
      (mlookup (handle_message_updated sinkOk now s sid ts
          info).1.messages key).isSome = true)
    ∧ (∀ key, (mlookup s.emitted key).isSome = true →
      (mlookup (handle_message_updated sinkOk now s sid ts
          info).1.emitted key).isSome = true)
    ∧ (∀ key, (mlookup s.message_last_seen key).isSome = true →
      (mlookup (handle_message_part_updated sinkOk now s sid ts
          part).1.message_last_seen key).isSome = true)
    ∧ (∀ key, (mlookup s.part_last_seen key).isSome = true →
      (mlookup (handle_message_part_updated sinkOk now s sid ts
          part).1.part_last_seen key).isSome = true)
    ∧ (∀ key, (mlookup s.messages key).isSome = true →
      (mlookup (handle_message_part_updated sinkOk now s sid ts
          part).1.messages key).isSome = true)
    ∧ (∀ key, (mlookup s.emitted key).isSome = true →
      (mlookup (handle_message_part_updated sinkOk now s sid ts
          part).1.emitted key).isSome = true)
    ∧ (maybe_emit_assistant_turn sinkOk now s a b i).1.message_last_seen
        = s.message_last_seen
    ∧ (maybe_emit_assistant_turn sinkOk now s a b i).1.part_last_seen
        = s.part_last_seen
    ∧ (maybe_emit_assistant_turn sinkOk now s a b i).1.messages
        = s.messages
    ∧ (maybe_emit_assistant_turn sinkOk now s a b i).1.pending_parts
        = s.pending_parts
    ∧ (∀ key, (mlookup s.emitted key).isSome = true →
      (mlookup (maybe_emit_assistant_turn sinkOk now s a b
          i).1.emitted key).isSome = true)
    ∧ (cleanup_emitted_message_buffers s a b).message_last_seen
        = s.message_last_seen
    ∧ (cleanup_emitted_message_buffers s a b).part_last_seen
        = s.part_last_seen
    ∧ (cleanup_emitted_message_buffers s a b).messages = s.messages
    ∧ (cleanup_emitted_message_buffers s a b).emitted = s.emitted
    ∧ (cleanup_emitted_message_buffers s a b).pending_parts
        = s.pending_parts := by
  refine ⟨?_, ?_, ?_, ?_, ?_, ?_, ?_, ?_, ?_, ?_, ?_, ?_, ?_, rfl, rfl,
    rfl, rfl, rfl⟩
  · intro key hk
    by_cases hid : info.id = ""
    · rw [handle_message_updated_noid sinkOk now s sid ts info hid]
      exact hk
    · cases hold : is_older_event s.message_last_seen
          (msg_key sid info.id) ts
      · rw [handle_message_updated_last_seen sinkOk now s sid ts info
          hid hold]
        exact mlookup_minsert_isSome _ _ _ _ hk
      · rw [handle_message_updated_stale sinkOk now s sid ts info
          hid hold]
        exact hk
  · intro key hk
    rw [handle_message_updated_part_last_seen]
    exact hk
  · intro key hk
    by_cases hid : info.id = ""
    · rw [handle_message_updated_noid sinkOk now s sid ts info hid]
      exact hk
    · cases hold : is_older_event s.message_last_seen
          (msg_key sid info.id) ts
      · rw [handle_message_updated_messages sinkOk now s sid ts info
          hid hold]
        exact mlookup_minsert_isSome _ _ _ _ hk
      · rw [handle_message_updated_stale sinkOk now s sid ts info
          hid hold]
        exact hk
  · intro key hk
    exact handle_message_updated_emitted_mono sinkOk now s sid ts info
      key hk
  · intro key hk
    rw [handle_part_updated_message_last_seen]
    exact hk
  · intro key hk
    by_cases hid : part.messageID = "" ∨ part.id = ""
    · rw [handle_part_updated_noid sinkOk now s sid ts part hid]
      exact hk
    · cases hold : is_older_event s.part_last_seen
          (msg_key sid part.messageID ++ ":" ++ part.id) ts
      · rw [handle_part_updated_last_seen sinkOk now s sid ts part
          hid hold]
        exact mlookup_minsert_isSome _ _ _ _ hk
      · rw [handle_part_updated_stale sinkOk now s sid ts part hid hold]
        exact hk
  · intro key hk
    rw [handle_part_updated_messages]
    exact hk
  · intro key hk
    exact handle_part_updated_emitted_mono sinkOk now s sid ts part key hk
  · exact (maybe_emit_frame sinkOk now s a b i).2.1
  · exact (maybe_emit_frame sinkOk now s a b i).2.2.1
  · exact (maybe_emit_frame sinkOk now s a b i).1
  · exact (maybe_emit_frame sinkOk now s a b i).2.2.2.1
  · intro key hk
    exact maybe_emit_emitted_mono sinkOk now s a b i key hk

/-- C10's witness state: one prior emitted marker, one ready message. -/
def c10_state : HookState :=
  { initial_state with
    emitted := [("turn:s:old", 1)],
    message_last_seen := [("s:old", 1)],
    assistant_parts :=
      [("s:m", [("p1", fixture_text_part "m" "p1" "out" 1)])] }

/-- Witness for C10: the prior emitted marker survives a message-updated
handler run and an emission-gate run at concrete inputs. -/
theorem c10_watermarks_survive_witness :
    (mlookup (handle_message_updated true 7 c10_state "s" 9
        (fixture_info "m" "assistant" "" true)).1.emitted
        "turn:s:old").isSome = true
    ∧ (mlookup (maybe_emit_assistant_turn true 7 c10_state "s" "m"
        (fixture_info "m" "assistant" "" true)).1.emitted
        "turn:s:old").isSome = true :=
  ⟨(c10_watermarks_survive true 7 c10_state "s" 9
      (fixture_info "m" "assistant" "" true)
      (fixture_text_part "m" "p1" "out" 1) "s" "m"
      (fixture_info "m" "assistant" "" true)).2.2.2.1
      "turn:s:old" (by decide),
   (c10_watermarks_survive true 7 c10_state "s" 9
      (fixture_info "m" "assistant" "" true)
      (fixture_text_part "m" "p1" "out" 1) "s" "m"
      (fixture_info "m" "assistant" "" true)).2.2.2.2.2.2.2.2.2.2.2.2.1
      "turn:s:old" (by decide)⟩

/-! ## At-most-once emission machinery

`pair_payloads` counts the sink's turn payloads for one
(session, assistant message) pair; `pair_emitted` reads the pair's
durable marker.  `StepOk` is the invariant each operation preserves:
at most one payload per pair, none once the marker is set, the marker is
never cleared, and any payload sets the marker. -/

/-- How many turn payloads for the pair the sink received. -/
def pair_payloads (sid mid : String) (out : List TurnPayload) : Nat :=
  (out.filter (fun p => p.session_id == sid && p.message_id == mid)).length

/-- Whether the pair's turn id carries an emitted marker. -/
def pair_emitted (s : HookState) (sid mid : String) : Bool :=
  (mlookup s.emitted (turn_key sid mid)).isSome

/-- The per-operation invariant behind at-most-once emission. -/
def StepOk (sid mid : String) (s : HookState)
    (r : HookState × List TurnPayload) : Prop :=
  pair_payloads sid mid r.2 ≤ 1
  ∧ (pair_emitted s sid mid = true → pair_payloads sid mid r.2 = 0)
  ∧ (pair_emitted s sid mid = true → pair_emitted r.1 sid mid = true)
  ∧ (0 < pair_payloads sid mid r.2 → pair_emitted r.1 sid mid = true)

theorem pair_payloads_append (sid mid : String)
    (o1 o2 : List TurnPayload) :
    pair_payloads sid mid (o1 ++ o2) =
      pair_payloads sid mid o1 + pair_payloads sid mid o2 := by
  simp [pair_payloads, List.filter_append]

theorem stepok_nil (sid mid : String) (s : HookState) (s' : HookState)
    (hmono : pair_emitted s sid mid = true →
      pair_emitted s' sid mid = true) :
    StepOk sid mid s (s', []) := by
  refine ⟨?_, ?_, ?_, ?_⟩
  · simp [pair_payloads]
  · intro _; simp [pair_payloads]
  · exact hmono
  · intro hc; simp [pair_payloads] at hc

theorem stepok_comp (sid mid : String) (s s1 s2 : HookState)
    (o1 o2 : List TurnPayload)
    (h1 : StepOk sid mid s (s1, o1)) (h2 : StepOk sid mid s1 (s2, o2)) :
    StepOk sid mid s (s2, o1 ++ o2) := by
  obtain ⟨h1a, h1b, h1c, h1d⟩ := h1
  obtain ⟨h2a, h2b, h2c, h2d⟩ := h2
  simp only [StepOk, pair_payloads_append] at *
  refine ⟨?_, ?_, ?_, ?_⟩
  · rcases Nat.eq_zero_or_pos (pair_payloads sid mid o1) with hz | hp
    · omega
    · have := h2b (h1d hp)
      omega
  · intro he
    have hz1 := h1b he
    have hz2 := h2b (h1c he)
    omega
  · intro he
    exact h2c (h1c he)
  · intro hpos
    rcases Nat.eq_zero_or_pos (pair_payloads sid mid o2) with hz | hp
    · have hp1 : 0 < pair_payloads sid mid o1 := by omega
      exact h2c (h1d hp1)
    · exact h2d hp

theorem stepok_congr (sid mid : String) (s s0 : HookState)
    (r : HookState × List TurnPayload)
    (he : pair_emitted s sid mid = pair_emitted s0 sid mid)
    (h : StepOk sid mid s r) : StepOk sid mid s0 r := by
  obtain ⟨ha, hb, hc, hd⟩ := h
  exact ⟨ha, fun hx => hb (he ▸ hx), fun hx => hc (he ▸ hx), hd⟩

theorem pair_payloads_le_one (sid mid : String) (p : TurnPayload) :
    pair_payloads sid mid [p] ≤ 1 := by
  unfold pair_payloads
  cases h : (p.session_id == sid && p.message_id == mid) <;>
    simp [List.filter_cons, h]

theorem maybe_emit_stepok (k : Bool) (n : Nat) (sIn s0 : HookState)
    (a b : String) (i : MessageInfo) (sid mid : String)
    (hem : sIn.emitted = s0.emitted) :
    StepOk sid mid s0 (maybe_emit_assistant_turn k n sIn a b i) := by
  cases pe : (mlookup sIn.emitted (turn_key a b)).isSome
  · cases hd : turn_is_empty sIn a b n
    · rw [maybe_emit_result k n sIn a b i pe hd]
      have hpe : (purge_turn_buffers (mark_emitted sIn (turn_key a b) n)
          (msg_key a b) (user_key_of a i)).emitted =
          minsert sIn.emitted (turn_key a b) n := rfl
      by_cases hab : a = sid ∧ b = mid
      · obtain ⟨rfl, rfl⟩ := hab
        refine ⟨?_, ?_, ?_, ?_⟩
        · cases k
          · simp [pair_payloads]
          · exact pair_payloads_le_one a b _
        · intro he
          rw [pair_emitted, ← hem] at he
          rw [pe] at he
          exact absurd he (by simp)
        · intro he
          rw [pair_emitted, ← hem] at he
          rw [pe] at he
          exact absurd he (by simp)
        · intro _
          show (mlookup (purge_turn_buffers (mark_emitted sIn
              (turn_key a b) n) (msg_key a b)
              (user_key_of a i)).emitted (turn_key a b)).isSome = true
          rw [hpe, mlookup_minsert_self]
          rfl
      · have hcount : pair_payloads sid mid
            (if k then [emitted_payload sIn a b i n] else []) = 0 := by
          cases k
          · simp [pair_payloads]
          · have hpred : ((emitted_payload sIn a b i n).session_id == sid
                && (emitted_payload sIn a b i n).message_id == mid)
                = false := by
              rw [show (emitted_payload sIn a b i n).session_id = a
                    from rfl,
                  show (emitted_payload sIn a b i n).message_id = b
                    from rfl]
              by_cases h1 : a = sid
              · have h2 : b ≠ mid := fun hb2 => hab ⟨h1, hb2⟩
                simp [h1, h2]
              · simp [h1]
            simp [pair_payloads, List.filter_cons, hpred]
        refine ⟨?_, fun _ => hcount, ?_, ?_⟩
        · rw [hcount]; omega
        · intro he
          rw [pair_emitted, ← hem] at he
          show (mlookup (purge_turn_buffers (mark_emitted sIn
              (turn_key a b) n) (msg_key a b)
              (user_key_of a i)).emitted (turn_key sid mid)).isSome
              = true
          rw [hpe]
          exact mlookup_minsert_isSome _ _ _ _ he
        · intro hpos
          rw [hcount] at hpos
          exact absurd hpos (by omega)
    · rw [maybe_emit_of_empty k n sIn a b i hd]
      exact stepok_nil sid mid s0 sIn (fun h => by
        rwa [pair_emitted, hem])
  · rw [maybe_emit_of_emitted k n sIn a b i pe]
    exact stepok_nil sid mid s0 sIn (fun h => by
      rwa [pair_emitted, hem])

theorem flush_step_stepok (k : Bool) (n : Nat) (sess key : String)
    (s : HookState) (sid mid : String) :
    StepOk sid mid s (flush_step k n sess key s) := by
  unfold flush_step
  split
  · exact stepok_nil sid mid s s (fun h => h)
  · split
    · exact stepok_nil sid mid s s (fun h => h)
    · split
      · exact stepok_nil sid mid s _ (fun h => h)
      · split
        · exact stepok_nil sid mid s s (fun h => h)
        · exact maybe_emit_stepok k n s s _ _ _ sid mid rfl

theorem flush_go_stepok (k : Bool) (n : Nat) (sess : String)
    (sid mid : String) :
    ∀ (keys : List String) (s : HookState),
      StepOk sid mid s (flush_go k n sess keys s) := by
  intro keys
  induction keys with
  | nil =>
    intro s
    exact stepok_nil sid mid s s (fun h => h)
  | cons kk ks ih =>
    intro s
    simp only [flush_go]
    exact stepok_comp sid mid s (flush_step k n sess kk s).1
      (flush_go k n sess ks (flush_step k n sess kk s).1).1
      (flush_step k n sess kk s).2
      (flush_go k n sess ks (flush_step k n sess kk s).1).2
      (flush_step_stepok k n sess kk s sid mid)
      (ih (flush_step k n sess kk s).1)

theorem flush_pending_stepok (k : Bool) (n : Nat) (s : HookState)
    (sess : String) (sid mid : String) :
    StepOk sid mid s (flush_pending_assistant_turns k n s sess) := by
  unfold flush_pending_assistant_turns
  split
  · exact stepok_nil sid mid s s (fun h => h)
  · exact flush_go_stepok k n sess sid mid _ s

theorem post_part_flush_stepok (k : Bool) (n : Nat) (sess : String)
    (s : HookState) (r : HookState × List TurnPayload) (sid mid : String)
    (h : StepOk sid mid s r) :
    StepOk sid mid s (post_part_flush k n sess r) := by
  unfold post_part_flush
  split
  · split
    · exact stepok_comp sid mid s r.1
        (flush_pending_assistant_turns k n r.1 sess).1 r.2
        (flush_pending_assistant_turns k n r.1 sess).2 h
        (flush_pending_stepok k n r.1 sess sid mid)
    · exact h
  · exact h

theorem update_lifecycle_emitted (s : HookState) (x y : String) (t : Nat) :
    (update_session_lifecycle s x y t).emitted = s.emitted := by
  unfold update_session_lifecycle
  split
  · rfl
  · split
    · rfl
    · rfl

theorem handle_message_updated_stepok (k : Bool) (n : Nat) (s : HookState)
    (sess : String) (ts : Nat) (info : MessageInfo) (sid mid : String) :
    StepOk sid mid s (handle_message_updated k n s sess ts info) := by
  unfold handle_message_updated
  split
  · exact stepok_nil sid mid s s (fun h => h)
  · split
    · exact stepok_nil sid mid s s (fun h => h)
    · split
      · exact stepok_nil sid mid s _ (fun h => h)
      · split
        · refine stepok_nil sid mid s _ (fun h => ?_)
          show (mlookup (message_updated_buffered s (msg_key sess info.id)
              ts info n).emitted (turn_key sid mid)).isSome = true
          rw [(message_updated_buffered_frame s _ ts info n).2.2.2]
          exact h
        · split
          · exact maybe_emit_stepok k n _ s _ _ _ sid mid
              ((message_updated_buffered_frame s (msg_key sess info.id)
                ts info n).2.2.2)
          · refine stepok_nil sid mid s _ (fun h => ?_)
            show (mlookup (message_updated_buffered s
                (msg_key sess info.id) ts info n).emitted
                (turn_key sid mid)).isSome = true
            rw [(message_updated_buffered_frame s _ ts info n).2.2.2]
            exact h

theorem handle_part_updated_stepok (k : Bool) (n : Nat) (s : HookState)
    (sess : String) (ts : Nat) (part : MsgPart) (sid mid : String) :
    StepOk sid mid s (handle_message_part_updated k n s sess ts part) := by
  unfold handle_message_part_updated
  split
  · exact stepok_nil sid mid s s (fun h => h)
  · split
    · exact stepok_nil sid mid s s (fun h => h)
    · split
      · exact stepok_nil sid mid s _ (fun h => h)
      · split
        · exact stepok_nil sid mid s _ (fun h => h)
        · split
          · exact stepok_nil sid mid s _ (fun h => h)
          · split
            · exact maybe_emit_stepok k n _ s _ _ _ sid mid rfl
            · split
              · exact maybe_emit_stepok k n _ s _ _ _ sid mid rfl
              · exact stepok_nil sid mid s _ (fun h => h)

theorem process_event_stepok (st : Step) (s : HookState)
    (sid mid : String) : StepOk sid mid s (process_event st s) := by
  obtain ⟨k, n, t, ev⟩ := st
  cases ev with
  | messageUpdated sess info =>
    exact handle_message_updated_stepok k n s sess t info sid mid
  | messagePartUpdated sess part =>
    exact post_part_flush_stepok k n sess s _ sid mid
      (handle_part_updated_stepok k n s sess t part sid mid)
  | sessionCreated sess =>
    refine stepok_nil sid mid s _ (fun h => ?_)
    show (mlookup (update_session_lifecycle s sess "session.created"
        t).emitted (turn_key sid mid)).isSome = true
    rw [update_lifecycle_emitted]
    exact h
  | sessionIdle sess =>
    refine stepok_congr sid mid
      (update_session_lifecycle s sess "session.idle" t) s _ ?_
      (flush_pending_stepok k n _ sess sid mid)
    show (mlookup (update_session_lifecycle s sess "session.idle"
        t).emitted (turn_key sid mid)).isSome =
      (mlookup s.emitted (turn_key sid mid)).isSome
    rw [update_lifecycle_emitted]
  | sessionError sess =>
    refine stepok_congr sid mid
      (update_session_lifecycle s sess "session.error" t) s _ ?_
      (flush_pending_stepok k n _ sess sid mid)
    show (mlookup (update_session_lifecycle s sess "session.error"
        t).emitted (turn_key sid mid)).isSome =
      (mlookup s.emitted (turn_key sid mid)).isSome
    rw [update_lifecycle_emitted]
  | sessionCompacted sess =>
    refine stepok_congr sid mid
      (update_session_lifecycle s sess "session.compacted" t) s _ ?_
      (flush_pending_stepok k n _ sess sid mid)
    show (mlookup (update_session_lifecycle s sess "session.compacted"
        t).emitted (turn_key sid mid)).isSome =
      (mlookup s.emitted (turn_key sid mid)).isSome
    rw [update_lifecycle_emitted]
  | otherEvent =>
    exact stepok_nil sid mid s s (fun h => h)

theorem process_steps_stepok (sid mid : String) :
    ∀ (steps : List Step) (s : HookState),
      StepOk sid mid s (process_steps s steps) := by
  intro steps
  induction steps with
  | nil =>
    intro s
    exact stepok_nil sid mid s s (fun h => h)
  | cons st rest ih =>
    intro s
    simp only [process_steps]
    exact stepok_comp sid mid s (process_event st s).1
      (process_steps (process_event st s).1 rest).1
      (process_event st s).2
      (process_steps (process_event st s).1 rest).2
      (process_event_stepok st s sid mid)
      (ih (process_event st s).1)

/-- A concrete run that emits message `m`'s turn through the lifecycle
flush while a text part for `m` is still pending (no role was ever
stored for `m`): a pending text part, an inferred-assistant reasoning
part, then `session.idle`. -/
def flush_emit_steps : List Step :=
  [ { sinkOk := true, now := 100, ts := 1,
      event := .messagePartUpdated "s" (fixture_text_part "m" "p1" "hi" 1) },
    { sinkOk := true, now := 101, ts := 2,
      event := .messagePartUpdated "s"
        (fixture_reasoning_part "m" "p2" "think" 2) },
    { sinkOk := true, now := 102, ts := 3, event := .sessionIdle "s" } ]

/-- A later `message.updated` for `m` carrying role `user`. -/
def c1_rebuffer_step : Step :=
  { sinkOk := true, now := 103, ts := 4,
    event := .messageUpdated "s" (fixture_info "m" "user" "" false) }

/-- **C1 counterexample**: after `flush_emit_steps` the pair
`("s","m")`'s emitted marker is set and `user_parts` holds nothing for
the key, yet processing one more event for that pair — a
`message.updated` with role `user` — moves the still-pending text part
into `user_parts`: processing after the marker is set *does* re-buffer
parts for the pair, so the claim's no-re-buffer clause is false. -/
theorem c1_counterexample :
    (mlookup (process_steps initial_state flush_emit_steps).1.emitted
        (turn_key "s" "m")).isSome = true
    ∧ mlookup (process_steps initial_state
        flush_emit_steps).1.user_parts (msg_key "s" "m") = none
    ∧ (mlookup (process_steps initial_state
        (flush_emit_steps ++ [c1_rebuffer_step])).1.user_parts
        (msg_key "s" "m")).isSome = true :=
  ⟨by decide, by decide, by decide⟩

/-- **C1** (amended): over any processed event sequence the sink
receives at most one turn payload per (session id, assistant message id)
pair, and none at all when the pair's emitted marker is already set when
the sequence starts. -/
theorem c1_at_most_once_emission (steps : List Step) (s : HookState)
    (sid mid : String) :
    pair_payloads sid mid (process_steps s steps).2 ≤ 1
    ∧ ((mlookup s.emitted (turn_key sid mid)).isSome = true →
        pair_payloads sid mid (process_steps s steps).2 = 0) :=
  ⟨(process_steps_stepok sid mid steps s).1,
   fun h => (process_steps_stepok sid mid steps s).2.1 h⟩

/-- C1's witness state: the pair `("s","m")` already emitted, its
buffers re-populated, and a completed assistant `message.updated`
arriving — still no payload reaches the sink. -/
def c1_witness_state : HookState :=
  { initial_state with
    emitted := [(turn_key "s" "m", 1)],
    assistant_parts :=
      [("s:m", [("p1", fixture_text_part "m" "p1" "out" 1)])] }

/-- The completed assistant update that would otherwise emit. -/
def c1_witness_step : Step :=
  { sinkOk := true, now := 9, ts := 5,
    event := .messageUpdated "s" (fixture_info "m" "assistant" "" true) }

/-- Witness for C1 at a concrete already-emitted pair. -/
theorem c1_at_most_once_emission_witness :
    pair_payloads "s" "m"
      (process_steps c1_witness_state [c1_witness_step]).2 = 0 :=
  (c1_at_most_once_emission [c1_witness_step] c1_witness_state
    "s" "m").2 (by decide)

/-! ## Pending-part reconciliation lemmas -/

theorem mlookup_eq_none_of_not_mem {α : Type} (m : List (String × α))
    (k : String) (h : k ∉ m.map Prod.fst) : mlookup m k = none := by
  induction m with
  | nil => rfl
  | cons hd tl ih =>
    simp only [List.map_cons, List.mem_cons] at h
    push_neg at h
    unfold mlookup
    rw [if_neg (fun hc => h.1 hc.symm)]
    exact ih h.2

theorem merge_parts_lookup_none (base pm : PartsMap) (pid : String)
    (h : mlookup pm pid = none) :
    mlookup (merge_parts base pm) pid = mlookup base pid := by
  induction pm generalizing base with
  | nil => rfl
  | cons hd tl ih =>
    obtain ⟨k, v⟩ := hd
    have hk : ¬ k = pid := by
      intro hc
      unfold mlookup at h
      rw [if_pos hc] at h
      exact absurd h (by simp)
    have htl : mlookup tl pid = none := by
      unfold mlookup at h
      rwa [if_neg hk] at h
    show mlookup (merge_parts (minsert base k v) tl) pid = mlookup base pid
    rw [ih (minsert base k v) htl]
    exact mlookup_minsert_ne base k pid v hk

theorem merge_parts_lookup (base pm : PartsMap) (pid : String)
    (p : MsgPart) (hnd : (pm.map Prod.fst).Nodup)
    (h : mlookup pm pid = some p) :
    mlookup (merge_parts base pm) pid = some p := by
  induction pm generalizing base with
  | nil => simp [mlookup] at h
  | cons hd tl ih =>
    obtain ⟨k, v⟩ := hd
    simp only [List.map_cons, List.nodup_cons] at hnd
    by_cases hk : k = pid
    · subst hk
      have hv : v = p := by
        unfold mlookup at h
        rw [if_pos rfl] at h
        exact Option.some.inj h
      subst hv
      have htl : mlookup tl k = none :=
        mlookup_eq_none_of_not_mem tl k hnd.1
      show mlookup (merge_parts (minsert base k v) tl) k = some v
      rw [merge_parts_lookup_none (minsert base k v) tl k htl]
      exact mlookup_minsert_self base k v
    · have htl : mlookup tl pid = some p := by
        unfold mlookup at h
        rwa [if_neg hk] at h
      exact ih (minsert base k v) hnd.2 htl

theorem reconcile_user_result (s : HookState) (key : String)
    (pm : PartsMap) (pid : String) (p : MsgPart)
    (hpend : mlookup s.pending_parts key = some pm)
    (hnd : (pm.map Prod.fst).Nodup) (hpm : mlookup pm pid = some p) :
    mlookup (reconcile_pending s key "user").pending_parts key = none
    ∧ mlookup ((mlookup (reconcile_pending s key
        "user").user_parts key).getD []) pid = some p
    ∧ (reconcile_pending s key "user").assistant_parts =
        s.assistant_parts := by
  have hne : pm.isEmpty = false := by
    cases pm
    · simp [mlookup] at hpm
    · rfl
  unfold reconcile_pending
  rw [if_neg (by simp [hpend, hne]), if_neg (by decide),
    if_pos rfl]
  refine ⟨mlookup_mpop_self _ _, ?_, rfl⟩
  show mlookup ((mlookup (bucket_merge s.user_parts key
      ((mlookup s.pending_parts key).getD [])) key).getD []) pid = some p
  rw [hpend]
  unfold bucket_merge
  rw [mlookup_minsert_self]
  exact merge_parts_lookup _ pm pid p hnd hpm

theorem reconcile_assistant_result (s : HookState) (key : String)
    (pm : PartsMap) (pid : String) (p : MsgPart)
    (hpend : mlookup s.pending_parts key = some pm)
    (hnd : (pm.map Prod.fst).Nodup) (hpm : mlookup pm pid = some p) :
    mlookup (reconcile_pending s key "assistant").pending_parts key = none
    ∧ mlookup ((mlookup (reconcile_pending s key
        "assistant").assistant_parts key).getD []) pid = some p
    ∧ (reconcile_pending s key "assistant").user_parts = s.user_parts := by
  have hne : pm.isEmpty = false := by
    cases pm
    · simp [mlookup] at hpm
    · rfl
  unfold reconcile_pending
  rw [if_neg (by simp [hpend, hne]), if_pos rfl]
  refine ⟨mlookup_mpop_self _ _, ?_, rfl⟩
  show mlookup ((mlookup (bucket_merge s.assistant_parts key
      ((mlookup s.pending_parts key).getD [])) key).getD []) pid = some p
  rw [hpend]
  unfold bucket_merge
  rw [mlookup_minsert_self]
  exact merge_parts_lookup _ pm pid p hnd hpm

/-- **C6** (amended): when a text part for a message with no stored role
sits in `pending_parts` and an accepted `message.updated` then carries
role `user`, the pending parts move into `user_parts` (and out of
`pending_parts`) while `assistant_parts` is untouched; symmetrically
they move into `assistant_parts` when the role turns out to be
`assistant`, *provided* the pair's turn id is not already emitted and
the update does not simultaneously complete the message (an emitted
pair is purged instead and its parts stay pending; a completing update
may emit and purge the just-moved parts). -/
theorem c6_role_disambiguation (sinkOk : Bool) (now : Nat) (s : HookState)
    (sid : String) (ts : Nat) (info : MessageInfo) (pm : PartsMap)
    (pid : String) (p : MsgPart)
    (hid : info.id ≠ "")
    (hold : is_older_event s.message_last_seen (msg_key sid info.id) ts
        = false)
    (hpend : mlookup s.pending_parts (msg_key sid info.id) = some pm)
    (hnd : (pm.map Prod.fst).Nodup)
    (hpm : mlookup pm pid = some p) :
    (str_lower info.role = "user" →
      mlookup (handle_message_updated sinkOk now s sid ts
          info).1.pending_parts (msg_key sid info.id) = none
      ∧ mlookup ((mlookup (handle_message_updated sinkOk now s sid ts
          info).1.user_parts (msg_key sid info.id)).getD []) pid = some p
      ∧ (handle_message_updated sinkOk now s sid ts
          info).1.assistant_parts = s.assistant_parts)
    ∧ (str_lower info.role = "assistant" →
      (mlookup s.emitted (turn_key sid info.id)).isSome = false →
      info.completed = false →
      mlookup (handle_message_updated sinkOk now s sid ts
          info).1.pending_parts (msg_key sid info.id) = none
      ∧ mlookup ((mlookup (handle_message_updated sinkOk now s sid ts
          info).1.assistant_parts (msg_key sid info.id)).getD []) pid
          = some p
      ∧ (handle_message_updated sinkOk now s sid ts
          info).1.user_parts = s.user_parts) := by
  constructor
  · intro hrole
    unfold handle_message_updated
    rw [if_neg hid, if_neg (by simp [hold]), if_neg (by simp [hrole]),
      if_pos (by simp [hrole])]
    unfold message_updated_buffered
    rw [hrole]
    exact reconcile_user_result _ (msg_key sid info.id) pm pid p hpend
      hnd hpm
  · intro hrole hem hcomp
    unfold handle_message_updated
    rw [if_neg hid, if_neg (by simp [hold]), if_neg (by simp [hem]),
      if_neg (by simp [hrole]), if_neg (by simp [hcomp])]
    unfold message_updated_buffered
    rw [hrole]
    exact reconcile_assistant_result _ (msg_key sid info.id) pm pid p
      hpend hnd hpm

/-- C6's witness state: one pending text part for the role-less message
`m`. -/
def c6_witness_state : HookState :=
  { initial_state with
    pending_parts := [("s:m", [("p1", fixture_text_part "m" "p1" "hi" 1)])] }

/-- Witness for C6: after a role-`user` update the pending part sits in
`user_parts`; after a role-`assistant` (not completed, not emitted)
update it sits in `assistant_parts`. -/
theorem c6_role_disambiguation_witness :
    mlookup ((mlookup (handle_message_updated true 7 c6_witness_state
        "s" 2 (fixture_info "m" "user" "" false)).1.user_parts
        (msg_key "s" "m")).getD []) "p1"
      = some (fixture_text_part "m" "p1" "hi" 1)
    ∧ mlookup ((mlookup (handle_message_updated true 7 c6_witness_state
        "s" 2 (fixture_info "m" "assistant" "" false)).1.assistant_parts
        (msg_key "s" "m")).getD []) "p1"
      = some (fixture_text_part "m" "p1" "hi" 1) :=
  ⟨((c6_role_disambiguation true 7 c6_witness_state "s" 2
      (fixture_info "m" "user" "" false)
      [("p1", fixture_text_part "m" "p1" "hi" 1)] "p1"
      (fixture_text_part "m" "p1" "hi" 1)
      (by decide) (by decide) (by decide) (by decide) (by decide)).1
      (by decide)).2.1,
   ((c6_role_disambiguation true 7 c6_witness_state "s" 2
      (fixture_info "m" "assistant" "" false)
      [("p1", fixture_text_part "m" "p1" "hi" 1)] "p1"
      (fixture_text_part "m" "p1" "hi" 1)
      (by decide) (by decide) (by decide) (by decide) (by decide)).2
      (by decide) (by decide) (by decide)).2.1⟩

/-- The later `message.updated` for `m` carrying role `assistant`. -/
def c6_assistant_step : Step :=
  { sinkOk := true, now := 103, ts := 4,
    event := .messageUpdated "s" (fixture_info "m" "assistant" "" false) }

/-- **C6 counterexample**: run `flush_emit_steps` (text part pending for
the role-less message `m`, reasoning part inferred assistant, lifecycle
flush emits the turn); the marker is set and the text part still
pending.  The subsequently accepted `message.updated` carrying role
`assistant` hits the emitted-marker purge and returns: the part stays in
`pending_parts` and never lands in `assistant_parts`, so the claim's
symmetric assistant clause is false as stated. -/
theorem c6_counterexample :
    (mlookup (process_steps initial_state flush_emit_steps).1.emitted
        (turn_key "s" "m")).isSome = true
    ∧ (mlookup (process_steps initial_state
        flush_emit_steps).1.pending_parts (msg_key "s" "m")).isSome = true
    ∧ (mlookup (process_steps initial_state
        (flush_emit_steps ++ [c6_assistant_step])).1.pending_parts
        (msg_key "s" "m")).isSome = true
    ∧ mlookup (process_steps initial_state
        (flush_emit_steps ++ [c6_assistant_step])).1.assistant_parts
        (msg_key "s" "m") = none :=
  ⟨by decide, by decide, by decide, by decide⟩
